import Mathlib

/-!
# Verification of the OAuth token lifecycle subsystem

A shallow embedding, in Lean 4, of the token-lifecycle core of the `social`
multi-tenant OAuth2 broker: the state codec (`EncodeState`/`DecodeState`),
the PKCE helpers, the provider-specific token exchange and refresh engines
(`OAuthService`), the token cache (`TokenManager`) and the Redis-backed
credential store (`RedisStorage`), together with the OAuth callback handler
(`AuthHandler.Callback`).

Modelling conventions:
* Go `time.Time` values are modelled as `Option Int` (seconds); `none` is the
  Go zero time (`IsZero`).  `time.Now()` is an explicit `now : Int` parameter.
* Randomness (nonces, PKCE verifiers) is externalized: random strings drawn
  inside a Go function become explicit parameters of the Lean function.
* Network I/O is modelled by oracle functions inside an environment record;
  every outgoing call is additionally recorded in an event list so that
  "no network call is made" is a provable statement about the event trace.
* Go errors are modelled by inductive error kinds (one constructor per
  `return`-with-error site) or by their message strings where the code builds
  them with `fmt.Errorf`.
-/

set_option maxRecDepth 16384

namespace Social

/-! ## Data model: tokens (golang.org/x/oauth2 `Token` as used by this repo) -/

/-- The `oauth2.Token` record as the repository uses it: access token, refresh
token, token type, and expiry.  `expiry = none` models the Go zero `time.Time`
(`Expiry.IsZero()`); `some e` models an absolute expiry instant, in seconds. -/
structure Token where
  accessToken : String
  refreshToken : String
  tokenType : String
  expiry : Option Int
  deriving Repr, DecidableEq

/-- The 5-minute pre-expiry safety margin of `TokenManager.isTokenExpired`
(`expiryBuffer := 5 * time.Minute`), in seconds. -/
def expiryBuffer : Int := 5 * 60

/-- `TokenManager.isTokenExpired`: `true` when the token pointer is nil, the
expiry is the zero time, or `time.Now().Add(expiryBuffer).After(token.Expiry)`
(strict inequality, as Go's `Time.After`). -/
def isTokenExpired (now : Int) (token : Option Token) : Bool :=
  match token with
  | none => true
  | some t =>
    match t.expiry with
    | none => true
    | some e => decide (now + expiryBuffer > e)

/-! ## Provider endpoint constants (internal/config/constants.go) -/

def YouTubeAuthURL : String := "https://accounts.google.com/o/oauth2/auth"

def YouTubeTokenURL : String := "https://oauth2.googleapis.com/token"

def XAuthURL : String := "https://x.com/i/oauth2/authorize"

def XTokenURL : String := "https://api.x.com/2/oauth2/token"

def FacebookAuthURL : String := "https://www.facebook.com/v18.0/dialog/oauth"

def FacebookTokenURL : String := "https://graph.facebook.com/v18.0/oauth/access_token"

def TikTokAuthURL : String := "https://www.tiktok.com/v2/auth/authorize/"

def TikTokTokenURL : String := "https://open.tiktokapis.com/v2/oauth/token/"

def InstagramAuthURL : String := "https://api.instagram.com/oauth/authorize"

def InstagramTokenURL : String := "https://api.instagram.com/oauth/access_token"

/-- Endpoint of the Instagram short-lived → long-lived token exchange
(`exchangeURL` in `OAuthService.exchangeInstagramToken`). -/
def InstagramUpgradeURL : String := "https://graph.instagram.com/access_token"

/-- Endpoint of the Instagram token refresh
(`refreshURL` in `OAuthService.refreshTokenWithInstagram`). -/
def InstagramRefreshURL : String := "https://graph.instagram.com/refresh_access_token"

/-- Endpoint of the Facebook short-lived → long-lived exchange and of the
Facebook refresh (`exchangeURL`/`refreshURL` in `exchangeFacebookToken` and
`refreshTokenWithFacebook`). -/
def FacebookUpgradeURL : String := "https://graph.facebook.com/oauth/access_token"

/-! ## Configuration (internal/config) -/

/-- Per-provider OAuth application credentials (`config.ProviderConfig`). -/
structure ProviderConfig where
  clientID : String
  clientSecret : String
  scopes : List String
  deriving Repr, DecidableEq

/-- Per-server (tenant) configuration block (`config.ServerConfig`). -/
structure ServerConfig where
  youtube : ProviderConfig
  x : ProviderConfig
  facebook : ProviderConfig
  tiktok : ProviderConfig
  instagram : ProviderConfig
  deriving Repr

/-- The application configuration; only the per-server map matters here. -/
structure Config where
  servers : String → Option ServerConfig

/-- `oauth2.Config`: client credentials, endpoints and redirect URL. -/
structure OAuthConfig where
  clientID : String
  clientSecret : String
  scopes : List String
  authURL : String
  tokenURL : String
  redirectURL : String
  deriving Repr, DecidableEq

/-- `Config.GetServerOAuthConfig`: resolves `(provider, serverName)` to an
`oauth2.Config`; fails when the server has no configuration or the provider
name is unknown.  Errors carry the `fmt.Errorf` message. -/
def Config.GetServerOAuthConfig (c : Config) (provider serverName redirectURI : String) :
    Except String OAuthConfig :=
  match c.servers serverName with
  | none => .error ("server configuration not found: " ++ serverName)
  | some sc =>
    let mk (pc : ProviderConfig) (authURL tokenURL : String) : OAuthConfig :=
      { clientID := pc.clientID, clientSecret := pc.clientSecret, scopes := pc.scopes,
        authURL := authURL, tokenURL := tokenURL, redirectURL := redirectURI }
    if provider = "youtube" then .ok (mk sc.youtube YouTubeAuthURL YouTubeTokenURL)
    else if provider = "x" then .ok (mk sc.x XAuthURL XTokenURL)
    else if provider = "facebook" then .ok (mk sc.facebook FacebookAuthURL FacebookTokenURL)
    else if provider = "tiktok" then .ok (mk sc.tiktok TikTokAuthURL TikTokTokenURL)
    else if provider = "instagram" then .ok (mk sc.instagram InstagramAuthURL InstagramTokenURL)
    else .error ("unknown provider: " ++ provider)

/-! ## Observable effects -/

/-- One observable external effect of the core: a Redis token read/write, the
atomic PKCE get-and-delete, or an outgoing HTTP call of the exchange/refresh
engines. -/
inductive Event where
  | getToken (key : String)
  | saveToken (key : String) (t : Token)
  | pkceGetDelete (key : String)
  | httpExchange (url code verifier : String)
  | httpUpgrade (url shortLivedToken : String)
  | httpRefresh (url credential : String)
  deriving Repr, DecidableEq

/-- Is the event an outgoing provider HTTP call (exchange, upgrade, refresh)? -/
def Event.isProviderCall : Event → Bool
  | .httpExchange _ _ _ => true
  | .httpUpgrade _ _ => true
  | .httpRefresh _ _ => true
  | _ => false

/-! ## Provider HTTP oracles -/

/-- Parsed JSON body of an Instagram/Facebook exchange-token-grant response
(`access_token`, `token_type`, `expires_in`; these paths parse no
`refresh_token` field). -/
structure GrantResp where
  accessToken : String
  tokenType : String
  expiresIn : Int
  deriving Repr, DecidableEq

/-- Parsed JSON body of an X (Twitter) token response, which also carries a
`refresh_token`. -/
structure XResp where
  accessToken : String
  tokenType : String
  expiresIn : Int
  refreshToken : String
  deriving Repr, DecidableEq

/-- Oracles for every outgoing provider call.  An `Except.error` covers every
Go failure path of that call: transport error, non-200 status, body read
failure, or malformed JSON (the string is the resulting error message). -/
structure OAuthEnv where
  /-- `oauth2.Config.Exchange` (library code exchange): token URL, code,
  verifier (`""` when no `code_verifier` parameter is sent). -/
  libExchange : String → String → String → Except String Token
  /-- The manual X exchange `exchangeCodeWithPKCE`: code, verifier. -/
  xExchangeHttp : String → String → Except String XResp
  /-- The ig/fb long-lived-token upgrade GET: URL, short-lived token. -/
  upgradeHttp : String → String → Except String GrantResp
  /-- The ig/fb custom refresh GET: URL, refresh credential. -/
  refreshHttp : String → String → Except String GrantResp
  /-- The manual X refresh `refreshTokenWithX`: refresh credential. -/
  xRefreshHttp : String → Except String XResp
  /-- `oauth2.Config.TokenSource(...).Token()` (library refresh): token URL,
  refresh credential.  With only a refresh token and zero expiry the token
  source always performs the network refresh. -/
  standardRefresh : String → String → Except String Token

/-! ## Token Refresh Engine (`OAuthService.RefreshToken` and helpers) -/

/-- Build the token returned by an ig/fb-style response: `Expiry` is
`now + expires_in` when `expires_in > 0`, otherwise left unset. -/
def tokenOfGrantResp (now : Int) (r : GrantResp) (refreshToken : String) : Token :=
  { accessToken := r.accessToken, tokenType := r.tokenType, refreshToken := refreshToken,
    expiry := if r.expiresIn > 0 then some (now + r.expiresIn) else none }

/-- Build the token from an X-style response (refresh token taken from the
response). -/
def tokenOfXResp (now : Int) (r : XResp) : Token :=
  { accessToken := r.accessToken, tokenType := r.tokenType, refreshToken := r.refreshToken,
    expiry := if r.expiresIn > 0 then some (now + r.expiresIn) else none }

/-- `OAuthService.refreshTokenWithInstagram`: GET to the Instagram refresh
endpoint with the current access token; the resulting token's `RefreshToken`
is left empty (the Go code constructs the `oauth2.Token` without setting it:
"Instagram doesn't provide refresh token in refresh response"). -/
def OAuthService.refreshTokenWithInstagram (env : OAuthEnv) (now : Int)
    (accessToken : String) : Except String Token × List Event :=
  let evs := [Event.httpRefresh InstagramRefreshURL accessToken]
  match env.refreshHttp InstagramRefreshURL accessToken with
  | .error e => (.error e, evs)
  | .ok r => (.ok (tokenOfGrantResp now r ""), evs)

/-- `OAuthService.refreshTokenWithFacebook`: GET to the Facebook
`fb_exchange_token` endpoint; the returned access token is also copied into
`RefreshToken` ("the long-lived token itself can be used for refresh"). -/
def OAuthService.refreshTokenWithFacebook (env : OAuthEnv) (now : Int)
    (accessToken : String) : Except String Token × List Event :=
  let evs := [Event.httpRefresh FacebookUpgradeURL accessToken]
  match env.refreshHttp FacebookUpgradeURL accessToken with
  | .error e => (.error e, evs)
  | .ok r => (.ok (tokenOfGrantResp now r r.accessToken), evs)

/-- `OAuthService.refreshTokenWithX`: manual `grant_type=refresh_token` POST
with HTTP Basic auth; the response's `refresh_token` is kept. -/
def OAuthService.refreshTokenWithX (env : OAuthEnv) (now : Int) (cfg : OAuthConfig)
    (refreshToken : String) : Except String Token × List Event :=
  let evs := [Event.httpRefresh cfg.tokenURL refreshToken]
  match env.xRefreshHttp refreshToken with
  | .error e => (.error e, evs)
  | .ok r => (.ok (tokenOfXResp now r), evs)

/-- `OAuthService.RefreshToken`: dispatches on the token endpoint URL — the X,
Instagram and Facebook platforms use custom refresh calls, every other
platform the standard oauth2-library refresh-token grant. -/
def OAuthService.RefreshToken (env : OAuthEnv) (now : Int) (cfg : OAuthConfig)
    (refreshToken : String) : Except String Token × List Event :=
  if cfg.tokenURL = XTokenURL then
    OAuthService.refreshTokenWithX env now cfg refreshToken
  else if cfg.tokenURL = InstagramTokenURL then
    OAuthService.refreshTokenWithInstagram env now refreshToken
  else if cfg.tokenURL = FacebookTokenURL then
    OAuthService.refreshTokenWithFacebook env now refreshToken
  else
    let evs := [Event.httpRefresh cfg.tokenURL refreshToken]
    match env.standardRefresh cfg.tokenURL refreshToken with
    | .error e => (.error ("token refresh failed: " ++ e), evs)
    | .ok t => (.ok t, evs)

/-! ## Credential Store (internal/storage/redis.go)

The Redis key space is modelled at the record level: `tokens` maps a token key
to the stored `Token` (serialization through JSON is modelled as an exact
round-trip, with `unmarshalErr` as the oracle for records that fail to
deserialize), and `pkce` maps a PKCE key to the stored verifier. -/

/-- The shared mutable state held in Redis. -/
structure RedisState where
  tokens : String → Option Token
  pkce : String → Option String

/-- Fault oracles for the Redis client: per-call transport/deserialization
failures, carrying the Go error detail. -/
structure RedisFaults where
  /-- `client.Ping` failure inside `GetToken` (connection failure). -/
  pingErr : Option String
  /-- Per-key transport failure of `client.Get` (an error other than `redis.Nil`). -/
  getErr : String → Option String
  /-- Per-key: the stored record fails `json.Unmarshal`. -/
  unmarshalErr : String → Bool
  /-- `client.Set` failure inside `SaveToken`. -/
  setErr : Option String
  /-- Pipeline `Exec` failure in `GetAndDeletePKCEVerifier` (other than `redis.Nil`). -/
  pkcePipeErr : Option String
  /-- `Del` failure inside the PKCE pipeline. -/
  pkceDelErr : Option String

/-- `RedisStorage.TokenKey`: `token:<serverName>:<provider>:<userID>`, with the
empty server name defaulted to `"default"`. -/
def tokenKey (userID provider serverName : String) : String :=
  "token:" ++ (if serverName = "" then "default" else serverName) ++ ":" ++ provider ++ ":" ++ userID

/-- `RedisStorage.PKCEKey`: `pkce:<state>`. -/
def pkceKey (state : String) : String := "pkce:" ++ state

/-- The distinct failure outcomes of `RedisStorage.GetToken`, one per error
return in the Go function. -/
inductive StoreError where
  | redisConnectionFailed (detail : String)
  | tokenNotFound
  | getFailed (detail : String)
  | unmarshalFailed
  deriving Repr, DecidableEq

/-- `RedisStorage.GetToken`: ping the connection, `GET` the key (`redis.Nil`
is the distinguished not-found reply), then `json.Unmarshal` the record. -/
def RedisStorage.GetToken (st : RedisState) (f : RedisFaults)
    (userID provider serverName : String) : Except StoreError Token :=
  let key := tokenKey userID provider serverName
  match f.pingErr with
  | some e => .error (.redisConnectionFailed e)
  | none =>
    match f.getErr key with
    | some e => .error (.getFailed e)
    | none =>
      match st.tokens key with
      | none => .error .tokenNotFound
      | some t => if f.unmarshalErr key then .error .unmarshalFailed else .ok t

/-- `RedisStorage.SaveToken`: `SET` the serialized token under its key (30-day
TTL, not modelled); on success the whole record is replaced. -/
def RedisStorage.SaveToken (st : RedisState) (f : RedisFaults)
    (userID provider serverName : String) (tok : Token) : Except String Unit × RedisState :=
  let key := tokenKey userID provider serverName
  match f.setErr with
  | some e => (.error e, st)
  | none => (.ok (), { st with tokens := fun k => if k = key then some tok else st.tokens k })

/-- `RedisStorage.GetAndDeletePKCEVerifier`: atomic pipeline `GET` + `DEL`.
When the pipeline executes, the key is deleted whether or not the `GET`
found a value. -/
def RedisStorage.GetAndDeletePKCEVerifier (st : RedisState) (f : RedisFaults)
    (state : String) : Except String String × RedisState :=
  let key := pkceKey state
  match f.pkcePipeErr with
  | some e => (.error ("failed to get PKCE verifier: " ++ e), st)
  | none =>
    let st' : RedisState := { st with pkce := fun k => if k = key then none else st.pkce k }
    match st.pkce key with
    | none => (.error "PKCE verifier not found or expired", st')
    | some verifier =>
      match f.pkceDelErr with
      | some e => (.error ("failed to delete PKCE verifier: " ++ e), st')
      | none => (.ok verifier, st')

/-! ## Token Cache / Lifecycle Manager (`TokenManager`) -/

/-- The error kinds of the `TokenManager` operations, one constructor per
error-return site (`fmt.Errorf` wrappers become constructors holding the
wrapped kind or detail). -/
inductive TMError where
  /-- `GetValidToken`: any storage read failure is reported as `errors.ErrTokenNotFound`. -/
  | errTokenNotFound
  /-- `refreshToken`: "instagram access token not available". -/
  | instagramAccessTokenUnavailable
  /-- `refreshToken`: "refresh token not available". -/
  | refreshCredentialUnavailable
  /-- `refreshToken`: "failed to get OAuth config: ..." -/
  | oauthConfigFailed (detail : String)
  /-- `refreshToken`: "token refresh failed: ..." around the engine call. -/
  | refreshCallFailed (detail : String)
  /-- `refreshToken`: "failed to save refreshed token: ..." -/
  | saveRefreshedTokenFailed (detail : String)
  /-- `GetValidToken`: "token refresh failed: %w" around `refreshToken`. -/
  | tokenRefreshFailed (inner : TMError)
  /-- `ForceRefreshToken`: "OAuth token not found". -/
  | forceTokenNotFound
  /-- `ForceRefreshToken`: "force token refresh failed: %w" around `refreshToken`. -/
  | forceRefreshFailed (inner : TMError)
  deriving Repr, DecidableEq

/-- Outcome of `TokenManager.refreshToken`.  `currentAfter` is the value of
`currentToken` when the call returns: the Go function receives the token by
pointer and, for Instagram, assigns `currentToken.RefreshToken =
currentToken.AccessToken` in place, so this field makes that mutation
observable. -/
structure RefreshOutcome where
  result : Except TMError Token
  currentAfter : Token
  store : RedisState
  events : List Event

/-- The tail of `TokenManager.refreshToken` after the refresh-credential
check: resolve the OAuth config, invoke the provider refresh with
`cur.refreshToken`, and persist the new token.  `cur` is the (possibly
mutated) `currentToken`. -/
def TokenManager.refreshTokenCore (cfg : Config) (env : OAuthEnv) (st : RedisState)
    (f : RedisFaults) (now : Int) (userID provider serverName : String)
    (cur : Token) : RefreshOutcome :=
  match cfg.GetServerOAuthConfig provider serverName "" with
  | .error e => ⟨.error (.oauthConfigFailed e), cur, st, []⟩
  | .ok oc =>
    match OAuthService.RefreshToken env now oc cur.refreshToken with
    | (.error e, evs) => ⟨.error (.refreshCallFailed e), cur, st, evs⟩
    | (.ok newTok, evs) =>
      match RedisStorage.SaveToken st f userID provider serverName newTok with
      | (.error e, st') =>
        ⟨.error (.saveRefreshedTokenFailed e), cur, st',
          evs ++ [.saveToken (tokenKey userID provider serverName) newTok]⟩
      | (.ok _, st') =>
        ⟨.ok newTok, cur, st',
          evs ++ [.saveToken (tokenKey userID provider serverName) newTok]⟩

/-- `TokenManager.refreshToken`: for Instagram substitute the access token as
the refresh credential (failing when it is empty) — the Go code assigns
`currentToken.RefreshToken = currentToken.AccessToken` on the token in place;
for every other provider fail when the refresh token is empty; then continue
with `refreshTokenCore`. -/
def TokenManager.refreshToken (cfg : Config) (env : OAuthEnv) (st : RedisState)
    (f : RedisFaults) (now : Int) (userID provider serverName : String)
    (currentToken : Token) : RefreshOutcome :=
  if provider = "instagram" then
    if currentToken.accessToken = "" then
      ⟨.error .instagramAccessTokenUnavailable, currentToken, st, []⟩
    else
      TokenManager.refreshTokenCore cfg env st f now userID provider serverName
        { currentToken with refreshToken := currentToken.accessToken }
  else
    if currentToken.refreshToken = "" then
      ⟨.error .refreshCredentialUnavailable, currentToken, st, []⟩
    else
      TokenManager.refreshTokenCore cfg env st f now userID provider serverName currentToken

/-- `TokenManager.GetValidToken`: read the token, return it if still valid,
otherwise refresh and return the refreshed token. -/
def TokenManager.GetValidToken (cfg : Config) (env : OAuthEnv) (st : RedisState)
    (f : RedisFaults) (now : Int) (userID provider serverName : String) :
    Except TMError Token × RedisState × List Event :=
  let key := tokenKey userID provider serverName
  match RedisStorage.GetToken st f userID provider serverName with
  | .error _ => (.error .errTokenNotFound, st, [.getToken key])
  | .ok token =>
    if isTokenExpired now (some token) then
      let r := TokenManager.refreshToken cfg env st f now userID provider serverName token
      match r.result with
      | .error e => (.error (.tokenRefreshFailed e), r.store, .getToken key :: r.events)
      | .ok newTok => (.ok newTok, r.store, .getToken key :: r.events)
    else
      (.ok token, st, [.getToken key])

/-- `TokenManager.IsTokenValid`: read-only check; any storage failure is
reported as `(false, nil)`, and the error component is always `nil`. -/
def TokenManager.IsTokenValid (st : RedisState) (f : RedisFaults) (now : Int)
    (userID provider serverName : String) : (Bool × Option TMError) × List Event :=
  let key := tokenKey userID provider serverName
  match RedisStorage.GetToken st f userID provider serverName with
  | .error _ => ((false, none), [.getToken key])
  | .ok t => ((!isTokenExpired now (some t), none), [.getToken key])

/-- `TokenManager.ForceRefreshToken`: unconditionally refresh; "OAuth token
not found" when nothing is cached. -/
def TokenManager.ForceRefreshToken (cfg : Config) (env : OAuthEnv) (st : RedisState)
    (f : RedisFaults) (now : Int) (userID provider serverName : String) :
    Except TMError Token × RedisState × List Event :=
  let key := tokenKey userID provider serverName
  match RedisStorage.GetToken st f userID provider serverName with
  | .error _ => (.error .forceTokenNotFound, st, [.getToken key])
  | .ok token =>
    let r := TokenManager.refreshToken cfg env st f now userID provider serverName token
    match r.result with
    | .error e => (.error (.forceRefreshFailed e), r.store, .getToken key :: r.events)
    | .ok newTok => (.ok newTok, r.store, .getToken key :: r.events)

/-! ## Token Exchange Engine (`OAuthService.ExchangeCode` and helpers) -/

/-- `OAuthService.exchangeCodeWithPKCE`: the manual X exchange — form POST to
the token endpoint with `code_verifier` and HTTP Basic client auth. -/
def OAuthService.exchangeCodeWithPKCE (env : OAuthEnv) (now : Int) (cfg : OAuthConfig)
    (code verifier : String) : Except String Token × List Event :=
  let evs := [Event.httpExchange cfg.tokenURL code verifier]
  match env.xExchangeHttp code verifier with
  | .error e => (.error e, evs)
  | .ok r => (.ok (tokenOfXResp now r), evs)

/-- `OAuthService.exchangeInstagramToken`: GET to the Instagram
`ig_exchange_token` endpoint; the returned access token is also copied into
`RefreshToken` ("the long-lived token itself can be used for refresh"). -/
def OAuthService.exchangeInstagramToken (env : OAuthEnv) (now : Int)
    (shortLivedToken : String) : Except String Token × List Event :=
  let evs := [Event.httpUpgrade InstagramUpgradeURL shortLivedToken]
  match env.upgradeHttp InstagramUpgradeURL shortLivedToken with
  | .error e => (.error e, evs)
  | .ok r => (.ok (tokenOfGrantResp now r r.accessToken), evs)

/-- `OAuthService.exchangeFacebookToken`: GET to the Facebook
`fb_exchange_token` endpoint; the returned access token is also copied into
`RefreshToken`. -/
def OAuthService.exchangeFacebookToken (env : OAuthEnv) (now : Int)
    (shortLivedToken : String) : Except String Token × List Event :=
  let evs := [Event.httpUpgrade FacebookUpgradeURL shortLivedToken]
  match env.upgradeHttp FacebookUpgradeURL shortLivedToken with
  | .error e => (.error e, evs)
  | .ok r => (.ok (tokenOfGrantResp now r r.accessToken), evs)

/-- `OAuthService.ExchangeCode`: the code→token exchange (PKCE-aware, with the
manual path for X), followed — for the Instagram and Facebook endpoints — by
the short-lived → long-lived upgrade call whose failure is swallowed (the
short-lived token is kept). -/
def OAuthService.ExchangeCode (env : OAuthEnv) (now : Int) (cfg : OAuthConfig)
    (code verifier : String) : Except String Token × List Event :=
  let (res, evs) :=
    if verifier ≠ "" then
      if cfg.tokenURL = XTokenURL then
        OAuthService.exchangeCodeWithPKCE env now cfg code verifier
      else
        match env.libExchange cfg.tokenURL code verifier with
        | .error e => (.error e, [Event.httpExchange cfg.tokenURL code verifier])
        | .ok t => (.ok t, [Event.httpExchange cfg.tokenURL code verifier])
    else
      match env.libExchange cfg.tokenURL code "" with
      | .error e => (.error e, [Event.httpExchange cfg.tokenURL code ""])
      | .ok t => (.ok t, [Event.httpExchange cfg.tokenURL code ""])
  match res with
  | .error e => (.error ("token exchange failed: " ++ e), evs)
  | .ok tok =>
    -- Instagram long-lived upgrade; on failure continue with the short-lived token
    let (tok1, evs1) :=
      if cfg.tokenURL = InstagramTokenURL then
        match OAuthService.exchangeInstagramToken env now tok.accessToken with
        | (.ok longLived, e1) => (longLived, e1)
        | (.error _, e1) => (tok, e1)
      else (tok, [])
    -- Facebook long-lived upgrade; on failure continue with the short-lived token
    let (tok2, evs2) :=
      if cfg.tokenURL = FacebookTokenURL then
        match OAuthService.exchangeFacebookToken env now tok1.accessToken with
        | (.ok longLived, e2) => (longLived, e2)
        | (.error _, e2) => (tok1, e2)
      else (tok1, [])
    (.ok tok2, evs ++ evs1 ++ evs2)

/-! ## State Codec (`EncodeState` / `DecodeState`)

`EncodeState` marshals a `StatePayload` with `encoding/json` and encodes the
bytes with `base64.RawURLEncoding`; `DecodeState` inverts both layers.  The
Go standard-library pieces are modelled at the byte level: strings are lists
of Unicode scalar values ( `Char` ), bytes are `Nat` values below 256.  The
JSON encoder follows the `encoding/json` string encoder with its default
HTML escaping; the decoder is the inverse parser, exact on the image of the
encoder (lenient stdlib behavior on inputs outside that image — surrogate
repair, replacement characters for invalid UTF-8 — is out of scope). -/

/-- The state parameter payload (`oauth.StatePayload`), with JSON field tags
`uid`, `server`, `n`. -/
structure StatePayload where
  userID : String
  serverName : String
  nonce : String
  deriving Repr, DecidableEq

/-- Byte value of the lowercase hex digit for `d < 16` (the `encoding/json`
hex alphabet `0123456789abcdef`). -/
def hexDigitChar (d : Nat) : Nat := if d < 10 then 48 + d else 87 + d

/-- Numeric value of a hex-digit byte, accepting both cases. -/
def hexVal (b : Nat) : Option Nat :=
  if 48 ≤ b ∧ b ≤ 57 then some (b - 48)
  else if 97 ≤ b ∧ b ≤ 102 then some (b - 87)
  else if 65 ≤ b ∧ b ≤ 70 then some (b - 55)
  else none

/-- UTF-8 encoding of a Unicode scalar value, 1–4 bytes. -/
def utf8EncodeCharBytes (c : Char) : List Nat :=
  let n := c.toNat
  if n < 0x80 then [n]
  else if n < 0x800 then [0xC0 + n / 64, 0x80 + n % 64]
  else if n < 0x10000 then [0xE0 + n / 4096, 0x80 + n / 64 % 64, 0x80 + n % 64]
  else [0xF0 + n / 262144, 0x80 + n / 4096 % 64, 0x80 + n / 64 % 64, 0x80 + n % 64]

/-- Bytes emitted for one character by the `encoding/json` string encoder
with its default `escapeHTML = true`: `"` and `\` are backslash-escaped,
`\n`, `\r`, `\t` use their short escapes, other control characters and the
HTML characters `<`, `>`, `&` become `\u00XX`-style escapes, U+2028 and
U+2029 become ` `/` `, and everything else is emitted as raw
UTF-8. -/
def escChar (c : Char) : List Nat :=
  let n := c.toNat
  if n < 0x80 then
    if n = 34 then [92, 34]
    else if n = 92 then [92, 92]
    else if 0x20 ≤ n ∧ n ≠ 60 ∧ n ≠ 62 ∧ n ≠ 38 then [n]
    else if n = 10 then [92, 110]
    else if n = 13 then [92, 114]
    else if n = 9 then [92, 116]
    else [92, 117, 48, 48, hexDigitChar (n / 16), hexDigitChar (n % 16)]
  else if n = 0x2028 ∨ n = 0x2029 then [92, 117, 50, 48, 50, hexDigitChar (n % 16)]
  else utf8EncodeCharBytes c

/-- JSON string-body encoding of a character list. -/
def escBytes (cs : List Char) : List Nat := cs.flatMap escChar

/-- The quoted JSON encoding of a Go string (`encoding/json` `encodeString`). -/
def goQuoteBytes (s : String) : List Nat := 34 :: escBytes s.data ++ [34]

/-- UTF-8 bytes of a pure-ASCII literal (used for the fixed pieces of the
marshalled object). -/
def asciiBytes (s : String) : List Nat := s.data.map Char.toNat

/-- `json.Marshal` of a `StatePayload`: field order follows the struct, tags
`uid`, `server`, `n`, no whitespace. -/
def jsonMarshalStatePayload (p : StatePayload) : List Nat :=
  asciiBytes "\x7b\"uid\":" ++ goQuoteBytes p.userID ++
    asciiBytes ",\"server\":" ++ goQuoteBytes p.serverName ++
    asciiBytes ",\"n\":" ++ goQuoteBytes p.nonce ++ asciiBytes "\x7d"

/-- Decode the four hex digits of a `\uXXXX` escape; surrogate values are
rejected (the Go decoder repairs them with U+FFFD, but the encoder never
produces them). -/
def parseU (bs1 : List Nat) : Option (Char × List Nat) :=
  match bs1 with
  | h1 :: h2 :: h3 :: h4 :: bs2 =>
    match hexVal h1 with
    | none => none
    | some v1 =>
      match hexVal h2 with
      | none => none
      | some v2 =>
        match hexVal h3 with
        | none => none
        | some v3 =>
          match hexVal h4 with
          | none => none
          | some v4 =>
            let n := ((v1 * 16 + v2) * 16 + v3) * 16 + v4
            if n < 0xD800 ∨ 0xE000 ≤ n then some (Char.ofNat n, bs2) else none
  | _ => none

/-- Decode a JSON escape sequence (the bytes after the backslash). -/
def parseEscape (bs : List Nat) : Option (Char × List Nat) :=
  match bs with
  | [] => none
  | e :: bs1 =>
    if e = 34 then some (Char.ofNat 34, bs1)
    else if e = 92 then some (Char.ofNat 92, bs1)
    else if e = 47 then some (Char.ofNat 47, bs1)
    else if e = 98 then some (Char.ofNat 8, bs1)
    else if e = 102 then some (Char.ofNat 12, bs1)
    else if e = 110 then some (Char.ofNat 10, bs1)
    else if e = 114 then some (Char.ofNat 13, bs1)
    else if e = 116 then some (Char.ofNat 9, bs1)
    else if e = 117 then parseU bs1
    else none

/-- Decode a two-byte UTF-8 sequence with lead byte `b`. -/
def parseTwoByte (b : Nat) (bs : List Nat) : Option (Char × List Nat) :=
  match bs with
  | b1 :: bs1 =>
    if 0x80 ≤ b1 ∧ b1 < 0xC0 then
      some (Char.ofNat ((b - 0xC0) * 64 + (b1 - 0x80)), bs1)
    else none
  | [] => none

/-- Decode a three-byte UTF-8 sequence with lead byte `b` (overlong and
surrogate encodings rejected). -/
def parseThreeByte (b : Nat) (bs : List Nat) : Option (Char × List Nat) :=
  match bs with
  | b1 :: b2 :: bs1 =>
    if 0x80 ≤ b1 ∧ b1 < 0xC0 ∧ 0x80 ≤ b2 ∧ b2 < 0xC0 then
      let n := (b - 0xE0) * 4096 + (b1 - 0x80) * 64 + (b2 - 0x80)
      if 0x800 ≤ n ∧ (n < 0xD800 ∨ 0xE000 ≤ n) then some (Char.ofNat n, bs1) else none
    else none
  | _ => none

/-- Decode a four-byte UTF-8 sequence with lead byte `b`. -/
def parseFourByte (b : Nat) (bs : List Nat) : Option (Char × List Nat) :=
  match bs with
  | b1 :: b2 :: b3 :: bs1 =>
    if 0x80 ≤ b1 ∧ b1 < 0xC0 ∧ 0x80 ≤ b2 ∧ b2 < 0xC0 ∧ 0x80 ≤ b3 ∧ b3 < 0xC0 then
      let n := (b - 0xF0) * 262144 + (b1 - 0x80) * 4096 + (b2 - 0x80) * 64 + (b3 - 0x80)
      if 0x10000 ≤ n ∧ n < 0x110000 then some (Char.ofNat n, bs1) else none
    else none
  | _ => none

/-- One step of the JSON string-body decoder: decode a single character from
the head byte `b` and the remaining bytes `bs` (the closing quote is handled
by the caller). -/
def parseOneChar (b : Nat) (bs : List Nat) : Option (Char × List Nat) :=
  if b = 92 then parseEscape bs
  else if b < 0x20 then none
  else if b < 0x80 then some (Char.ofNat b, bs)
  else if b < 0xC2 then none
  else if b < 0xE0 then parseTwoByte b bs
  else if b < 0xF0 then parseThreeByte b bs
  else if b < 0xF5 then parseFourByte b bs
  else none

theorem parseU_length (bs : List Nat) (c : Char) (rest : List Nat)
    (h : parseU bs = some (c, rest)) : rest.length ≤ bs.length := by
  unfold parseU at h
  split at h
  all_goals try cases h
  split at h
  all_goals try cases h
  split at h
  all_goals try cases h
  split at h
  all_goals try cases h
  split at h
  all_goals try cases h
  simp only [] at h
  split at h
  · cases h
    simp only [List.length_cons]
    omega
  · cases h

theorem parseEscape_length (bs : List Nat) (c : Char) (rest : List Nat)
    (h : parseEscape bs = some (c, rest)) : rest.length ≤ bs.length := by
  unfold parseEscape at h
  split at h
  · cases h
  · rename_i e bs1
    split at h
    · cases h; simp only [List.length_cons]; omega
    split at h
    · cases h; simp only [List.length_cons]; omega
    split at h
    · cases h; simp only [List.length_cons]; omega
    split at h
    · cases h; simp only [List.length_cons]; omega
    split at h
    · cases h; simp only [List.length_cons]; omega
    split at h
    · cases h; simp only [List.length_cons]; omega
    split at h
    · cases h; simp only [List.length_cons]; omega
    split at h
    · cases h; simp only [List.length_cons]; omega
    split at h
    · exact le_trans (parseU_length bs1 c rest h) (by simp)
    · cases h

theorem parseTwoByte_length (b : Nat) (bs : List Nat) (c : Char) (rest : List Nat)
    (h : parseTwoByte b bs = some (c, rest)) : rest.length ≤ bs.length := by
  unfold parseTwoByte at h
  split at h
  · split at h
    · cases h
      simp only [List.length_cons]
      omega
    · cases h
  · cases h

theorem parseThreeByte_length (b : Nat) (bs : List Nat) (c : Char) (rest : List Nat)
    (h : parseThreeByte b bs = some (c, rest)) : rest.length ≤ bs.length := by
  unfold parseThreeByte at h
  split at h
  · split at h
    · simp only [] at h
      split at h
      · cases h
        simp only [List.length_cons]
        omega
      · cases h
    · cases h
  · cases h

theorem parseFourByte_length (b : Nat) (bs : List Nat) (c : Char) (rest : List Nat)
    (h : parseFourByte b bs = some (c, rest)) : rest.length ≤ bs.length := by
  unfold parseFourByte at h
  split at h
  · split at h
    · simp only [] at h
      split at h
      · cases h
        simp only [List.length_cons]
        omega
      · cases h
    · cases h
  · cases h

/-- A successful decode step consumes at least the head byte. -/
theorem parseOneChar_length (b : Nat) (bs : List Nat) (c : Char) (rest : List Nat)
    (h : parseOneChar b bs = some (c, rest)) : rest.length ≤ bs.length := by
  unfold parseOneChar at h
  split at h
  · exact parseEscape_length bs c rest h
  · split at h
    · cases h
    · split at h
      · cases h; omega
      · split at h
        · cases h
        · split at h
          · exact parseTwoByte_length b bs c rest h
          · split at h
            · exact parseThreeByte_length b bs c rest h
            · split at h
              · exact parseFourByte_length b bs c rest h
              · cases h

/-- The JSON string-body decoder: decode characters with `parseOneChar` until
the closing quote, returning the decoded characters and the remaining bytes. -/
def unquoteLoop : List Nat → Option (List Char × List Nat)
  | [] => none
  | b :: bs =>
    if b = 34 then some ([], bs)
    else
      match hp : parseOneChar b bs with
      | none => none
      | some (c, rest) =>
        have : rest.length < bs.length + 1 :=
          Nat.lt_succ_of_le (parseOneChar_length b bs c rest hp)
        (unquoteLoop rest).map fun r => (c :: r.1, r.2)
  termination_by l => l.length

/-- Parse one quoted JSON string value. -/
def parseJsonString (bs : List Nat) : Option (String × List Nat) :=
  match bs with
  | b :: rest =>
    if b = 34 then (unquoteLoop rest).map fun r => (String.mk r.1, r.2) else none
  | [] => none

/-- Consume an expected literal byte prefix. -/
def dropPrefixBytes : List Nat → List Nat → Option (List Nat)
  | [], bs => some bs
  | _ :: _, [] => none
  | p :: ps, b :: bs => if b = p then dropPrefixBytes ps bs else none

/-- `json.Unmarshal` into a `StatePayload`, restricted to the exact object
shape `json.Marshal` produces for it (field order `uid`, `server`, `n`, no
whitespace) — the two functions agree on the image of the marshaller, which
is the only domain the state codec exercises. -/
def parseStatePayload (bs : List Nat) : Option StatePayload := do
  let bs1 ← dropPrefixBytes (asciiBytes "\x7b\"uid\":") bs
  let (uid, bs2) ← parseJsonString bs1
  let bs3 ← dropPrefixBytes (asciiBytes ",\"server\":") bs2
  let (server, bs4) ← parseJsonString bs3
  let bs5 ← dropPrefixBytes (asciiBytes ",\"n\":") bs4
  let (n, bs6) ← parseJsonString bs5
  if bs6 = [125] then some ⟨uid, server, n⟩ else none

/-- Character of the `base64.RawURLEncoding` alphabet for a sextet. -/
def b64Char (n : Nat) : Char :=
  if n < 26 then Char.ofNat (65 + n)
  else if n < 52 then Char.ofNat (97 + (n - 26))
  else if n < 62 then Char.ofNat (48 + (n - 52))
  else if n = 62 then Char.ofNat 45
  else Char.ofNat 95

/-- Sextet value of a `base64.RawURLEncoding` alphabet character. -/
def b64CharDec (c : Char) : Option Nat :=
  let n := c.toNat
  if 65 ≤ n ∧ n ≤ 90 then some (n - 65)
  else if 97 ≤ n ∧ n ≤ 122 then some (26 + (n - 97))
  else if 48 ≤ n ∧ n ≤ 57 then some (52 + (n - 48))
  else if n = 45 then some 62
  else if n = 95 then some 63
  else none

/-- Unpadded base64: bytes to sextets (three bytes to four sextets, with the
one- and two-byte tails of `RawURLEncoding`). -/
def b64EncodeSextets : List Nat → List Nat
  | [] => []
  | [a] => [a / 4, a % 4 * 16]
  | [a, b] => [a / 4, a % 4 * 16 + b / 16, b % 16 * 4]
  | a :: b :: c :: rest =>
    a / 4 :: (a % 4 * 16 + b / 16) :: (b % 16 * 4 + c / 64) :: c % 64 :: b64EncodeSextets rest

/-- Unpadded base64: sextets back to bytes.  A length of 1 mod 4 is rejected;
like the default (non-strict) Go decoder, trailing bits of a final partial
group are ignored rather than checked. -/
def b64DecodeSextets : List Nat → Option (List Nat)
  | [] => some []
  | [_] => none
  | [x, y] => some [x * 4 + y / 16]
  | [x, y, z] => some [x * 4 + y / 16, y % 16 * 16 + z / 4]
  | x :: y :: z :: w :: rest =>
    (b64DecodeSextets rest).map fun r =>
      (x * 4 + y / 16) :: (y % 16 * 16 + z / 4) :: (z % 4 * 64 + w) :: r

/-- `oauth.EncodeState`: marshal the payload `⟨userID, serverName, nonce⟩` to
JSON and base64url-encode it without padding.  The nonce — drawn inside the
Go function by `RandStringURLSafe(12)` — is externalized as a parameter; the
error paths (randomness or marshal failure) cannot occur in the model. -/
def EncodeState (userID serverName nonce : String) : String :=
  String.mk ((b64EncodeSextets (jsonMarshalStatePayload ⟨userID, serverName, nonce⟩)).map b64Char)

/-- `oauth.DecodeState`: base64url-decode and unmarshal; `none` covers both
failure paths ("failed to decode state", "failed to unmarshal state
payload"). -/
def DecodeState (raw : String) : Option StatePayload := do
  let sextets ← raw.data.mapM b64CharDec
  let bytes ← b64DecodeSextets sextets
  parseStatePayload bytes

/-! ## OAuth callback handler (internal/handlers/auth.go, `AuthHandler.Callback`) -/

/-- The callback request body (`types.CallbackRequest`), after a successful
JSON bind. -/
structure CallbackRequest where
  provider : String
  serverName : String
  userID : String
  state : String
  code : String
  redirectURI : String
  deriving Repr, DecidableEq

/-- The responses the callback handler can produce, one constructor per
return site.  Both `invalidState` and `serverNameMismatch` respond with the
`errors.ErrInvalidState` (`INVALID_STATE`) client error; `pkceVerifierMissing`
responds with `ErrInvalidState` plus the detail "PKCE verifier not found or
expired". -/
inductive CallbackResult where
  | invalidState
  | serverNameMismatch
  | invalidProvider (detail : String)
  | pkceVerifierMissing (detail : String)
  | exchangeFailed (detail : String)
  | saveTokenFailed (detail : String)
  | saveVerifyGetFailed
  | saveVerifyMismatch
  | platformNotSupported (detail : String)
  | success (userID serverName : String) (expiresAt referAt : Int)
  deriving Repr, DecidableEq

/-- Trailing part of a URL from the first `#` (the fragment survives the
query-stripping round trip through `url.Parse`/`URL.String`). -/
def fragmentPart : List Char → List Char
  | [] => []
  | c :: cs => if c = '#' then c :: cs else fragmentPart cs

/-- Characters of a URL with the query component removed. -/
def dropQueryChars : List Char → List Char
  | [] => []
  | c :: cs => if c = '?' then fragmentPart cs else c :: dropQueryChars cs

/-- The X-platform redirect-URI cleanup: parse, clear `RawQuery`, re-render.
Modelled for well-formed URLs (query before fragment); the Go code keeps the
original string when `url.Parse` fails. -/
def stripRawQuery (u : String) : String := String.mk (dropQueryChars u.data)

/-- The platform names registered in `platforms.NewRegistry`. -/
def registryPlatforms : List String := ["x", "youtube", "facebook", "tiktok", "instagram"]

/-- `Registry.GetPlatform`: lookup by name. -/
def Registry.GetPlatform (name : String) : Except String Unit :=
  if name ∈ registryPlatforms then .ok ()
  else .error ("platform " ++ name ++ " not supported")

/-- The hard-coded default callback redirect URI. -/
def defaultCallbackURL : String := "https://test-pubproject.wondera.io/static/callback.html"

/-- `AuthHandler.Callback` after a successful request bind: decode the state,
check the request server name against the one embedded in the state, resolve
the OAuth config, for provider `x` retrieve-and-delete the PKCE verifier,
exchange the code, persist the token under the REQUEST user id, read the
record back to verify the save, resolve the platform (its
`HandleOAuthCallback` error is swallowed), and answer with the success body.
The state payload user id is only logged (`platformUserID`). -/
def AuthHandler.Callback (cfg : Config) (env : OAuthEnv) (st : RedisState)
    (f : RedisFaults) (now : Int) (req : CallbackRequest) :
    CallbackResult × RedisState × List Event :=
  match DecodeState req.state with
  | none => (.invalidState, st, [])
  | some payload =>
    -- use the request service user id, not the platform user id from the state
    let userID := req.userID
    let serverName := req.serverName
    if req.serverName ≠ payload.serverName then (.serverNameMismatch, st, [])
    else
      let redirectURI := if req.redirectURI = "" then defaultCallbackURL else req.redirectURI
      let redirectURI := if req.provider = "x" then stripRawQuery redirectURI else redirectURI
      match cfg.GetServerOAuthConfig req.provider serverName redirectURI with
      | .error e => (.invalidProvider e, st, [])
      | .ok oc =>
        let pk : Except String String × RedisState × List Event :=
          if req.provider = "x" then
            match RedisStorage.GetAndDeletePKCEVerifier st f req.state with
            | (.error e, st1) => (.error e, st1, [.pkceGetDelete (pkceKey req.state)])
            | (.ok v, st1) => (.ok v, st1, [.pkceGetDelete (pkceKey req.state)])
          else (.ok "", st, [])
        match pk with
        | (.error e, st1, evs) => (.pkceVerifierMissing e, st1, evs)
        | (.ok verifier, st1, evs) =>
          match OAuthService.ExchangeCode env now oc req.code verifier with
          | (.error e, exEvs) => (.exchangeFailed e, st1, evs ++ exEvs)
          | (.ok token, exEvs) =>
            let key := tokenKey userID req.provider serverName
            match RedisStorage.SaveToken st1 f userID req.provider serverName token with
            | (.error e, st2) =>
              (.saveTokenFailed e, st2, evs ++ exEvs ++ [.saveToken key token])
            | (.ok _, st2) =>
              match RedisStorage.GetToken st2 f userID req.provider serverName with
              | .error _ =>
                (.saveVerifyGetFailed, st2, evs ++ exEvs ++ [.saveToken key token, .getToken key])
              | .ok savedToken =>
                if savedToken.accessToken ≠ token.accessToken then
                  (.saveVerifyMismatch, st2,
                    evs ++ exEvs ++ [.saveToken key token, .getToken key])
                else
                  match Registry.GetPlatform req.provider with
                  | .error e =>
                    (.platformNotSupported e, st2,
                      evs ++ exEvs ++ [.saveToken key token, .getToken key])
                  | .ok _ =>
                    let expiresAt : Int := match token.expiry with | none => 0 | some e => e
                    (.success userID serverName expiresAt now, st2,
                      evs ++ exEvs ++ [.saveToken key token, .getToken key])

/-! ## Concrete fixtures

Closed sample configurations, stores and oracle environments used to
evaluate the operations on concrete inputs. -/

def sampleProviderConfig : ProviderConfig := ⟨"cid", "csecret", ["scope1"]⟩

def sampleServerConfig : ServerConfig :=
  ⟨sampleProviderConfig, sampleProviderConfig, sampleProviderConfig,
    sampleProviderConfig, sampleProviderConfig⟩

/-- A configuration with the single server (tenant) `"srv"`. -/
def sampleConfig : Config :=
  ⟨fun s => if s = "srv" then some sampleServerConfig else none⟩

def sampleGrantResp : GrantResp := ⟨"newtok", "bearer", 3600⟩

def sampleXResp : XResp := ⟨"xtok", "bearer", 7200, "xrefresh"⟩

/-- A stale token with an empty refresh token (Instagram-style cache entry). -/
def sampleToken : Token := ⟨"tok123", "", "bearer", some (-1)⟩

/-- Oracles that answer every provider call successfully. -/
def sampleEnv : OAuthEnv where
  libExchange := fun _ _ _ => .ok ⟨"libtok", "librefresh", "bearer", some 1000⟩
  xExchangeHttp := fun _ _ => .ok sampleXResp
  upgradeHttp := fun _ _ => .ok sampleGrantResp
  refreshHttp := fun _ _ => .ok sampleGrantResp
  xRefreshHttp := fun _ => .ok sampleXResp
  standardRefresh := fun _ _ => .ok ⟨"stdtok", "stdrefresh", "bearer", some 2000⟩

/-- `sampleEnv` with a failing long-lived-token upgrade call. -/
def failUpgradeEnv : OAuthEnv :=
  { sampleEnv with upgradeHttp := fun _ _ => .error "upgrade unavailable" }

/-- A fault-free Redis client. -/
def noFaults : RedisFaults := ⟨none, fun _ => none, fun _ => false, none, none, none⟩

/-- A Redis client whose connection ping fails. -/
def connDownFaults : RedisFaults :=
  ⟨some "connection refused", fun _ => none, fun _ => false, none, none, none⟩

def emptyStore : RedisState := ⟨fun _ => none, fun _ => none⟩

/-- A store holding `sampleToken` for `(u1, instagram, srv)`. -/
def igStore : RedisState :=
  ⟨fun k => if k = tokenKey "u1" "instagram" "srv" then some sampleToken else none,
    fun _ => none⟩

/-- A store holding `sampleToken` for `(u1, youtube, srv)`. -/
def ytStore : RedisState :=
  ⟨fun k => if k = tokenKey "u1" "youtube" "srv" then some sampleToken else none,
    fun _ => none⟩

/-- An `oauth2.Config` resolved for Instagram. -/
def igOAuthConfig : OAuthConfig :=
  ⟨"cid", "csecret", ["scope1"], InstagramAuthURL, InstagramTokenURL, ""⟩

/-- An `oauth2.Config` resolved for Facebook. -/
def fbOAuthConfig : OAuthConfig :=
  ⟨"cid", "csecret", ["scope1"], FacebookAuthURL, FacebookTokenURL, ""⟩

/-- A concrete encoded state carrying the platform user id `"platformuser"`
and server `"srv"`. -/
def c4State : String := EncodeState "platformuser" "srv" "nonce12"

/-- A store holding only a PKCE verifier for `c4State`. -/
def c4Store : RedisState :=
  ⟨fun _ => none, fun k => if k = pkceKey c4State then some "ver64" else none⟩

/-- The fresh-login callback request: the request user id `"svcuser"` differs
from the platform user id `"platformuser"` carried by the state. -/
def c4Request : CallbackRequest :=
  ⟨"x", "srv", "svcuser", c4State, "abc", "https://cb.example/page"⟩

/-! ## State-codec round-trip lemmas -/

theorem hexVal_hexDigitChar (d : Nat) (h : d < 16) : hexVal (hexDigitChar d) = some d := by
  revert h; revert d; decide

theorem b64CharDec_b64Char (n : Nat) (h : n < 64) : b64CharDec (b64Char n) = some n := by
  revert h; revert n; decide

theorem char_toNat_valid (c : Char) :
    c.toNat < 0xD800 ∨ (0xDFFF < c.toNat ∧ c.toNat < 0x110000) := c.valid

/-- Unfolding step of the decode loop on a non-quote byte that decodes. -/
theorem unquoteLoop_cons (b : Nat) (bs : List Nat) (hb : ¬(b = 34)) (c : Char)
    (rest : List Nat) (hp : parseOneChar b bs = some (c, rest)) :
    unquoteLoop (b :: bs) = (unquoteLoop rest).map fun r => (c :: r.1, r.2) := by
  rw [unquoteLoop.eq_def]
  simp only []
  rw [if_neg hb]
  split
  · rename_i hnone
    rw [hp] at hnone
    cases hnone
  · rename_i c2 rest2 hp2
    rw [hp] at hp2
    cases hp2
    rfl

/-- A plain byte in the printable-ASCII range decodes as itself. -/
theorem parseOneChar_raw_ascii (m : Nat) (bs : List Nat)
    (h1 : 0x20 ≤ m) (h2 : m < 0x80) (h92 : ¬(m = 92)) :
    parseOneChar m bs = some (Char.ofNat m, bs) := by
  unfold parseOneChar
  rw [if_neg h92, if_neg (by omega : ¬(m < 0x20)), if_pos h2]

/-- A `\uXXXX` escape with non-surrogate value decodes to that scalar. -/
theorem parseOneChar_u_escape (d1 d2 d3 d4 : Nat) (bs : List Nat)
    (h1 : d1 < 16) (h2 : d2 < 16) (h3 : d3 < 16) (h4 : d4 < 16)
    (hvalid : ((d1 * 16 + d2) * 16 + d3) * 16 + d4 < 0xD800 ∨
      0xE000 ≤ ((d1 * 16 + d2) * 16 + d3) * 16 + d4) :
    parseOneChar 92 (117 :: hexDigitChar d1 :: hexDigitChar d2 :: hexDigitChar d3 ::
        hexDigitChar d4 :: bs) =
      some (Char.ofNat (((d1 * 16 + d2) * 16 + d3) * 16 + d4), bs) := by
  have e1 := hexVal_hexDigitChar d1 h1
  have e2 := hexVal_hexDigitChar d2 h2
  have e3 := hexVal_hexDigitChar d3 h3
  have e4 := hexVal_hexDigitChar d4 h4
  unfold parseOneChar parseEscape parseU
  simp [e1, e2, e3, e4, hvalid]

/-- A two-byte UTF-8 sequence decodes back to its scalar. -/
theorem parseOneChar_utf8_2 (m : Nat) (bs : List Nat) (h1 : 0x80 ≤ m) (h2 : m < 0x800) :
    parseOneChar (0xC0 + m / 64) ((0x80 + m % 64) :: bs) = some (Char.ofNat m, bs) := by
  have c1 : ¬(0xC0 + m / 64 = 92) := by omega
  have c2 : ¬(0xC0 + m / 64 < 0x20) := by omega
  have c3 : ¬(0xC0 + m / 64 < 0x80) := by omega
  have c4 : ¬(0xC0 + m / 64 < 0xC2) := by omega
  have c5 : 0xC0 + m / 64 < 0xE0 := by omega
  have c6 : 0x80 ≤ 0x80 + m % 64 ∧ 0x80 + m % 64 < 0xC0 := by omega
  have c7 : (0xC0 + m / 64 - 0xC0) * 64 + (0x80 + m % 64 - 0x80) = m := by omega
  unfold parseOneChar parseTwoByte
  rw [if_neg c1, if_neg c2, if_neg c3, if_neg c4, if_pos c5]
  simp only []
  rw [if_pos c6, c7]

/-- A three-byte UTF-8 sequence with non-surrogate scalar decodes back. -/
theorem parseOneChar_utf8_3 (m : Nat) (bs : List Nat) (h1 : 0x800 ≤ m) (h2 : m < 0x10000)
    (hv : m < 0xD800 ∨ 0xE000 ≤ m) :
    parseOneChar (0xE0 + m / 4096) ((0x80 + m / 64 % 64) :: (0x80 + m % 64) :: bs) =
      some (Char.ofNat m, bs) := by
  have c1 : ¬(0xE0 + m / 4096 = 92) := by omega
  have c2 : ¬(0xE0 + m / 4096 < 0x20) := by omega
  have c3 : ¬(0xE0 + m / 4096 < 0x80) := by omega
  have c4 : ¬(0xE0 + m / 4096 < 0xC2) := by omega
  have c5 : ¬(0xE0 + m / 4096 < 0xE0) := by omega
  have c6 : 0xE0 + m / 4096 < 0xF0 := by omega
  have c7 : 0x80 ≤ 0x80 + m / 64 % 64 ∧ 0x80 + m / 64 % 64 < 0xC0 ∧
      0x80 ≤ 0x80 + m % 64 ∧ 0x80 + m % 64 < 0xC0 := by omega
  have c8 : (0xE0 + m / 4096 - 0xE0) * 4096 + (0x80 + m / 64 % 64 - 0x80) * 64 +
      (0x80 + m % 64 - 0x80) = m := by omega
  unfold parseOneChar parseThreeByte
  rw [if_neg c1, if_neg c2, if_neg c3, if_neg c4, if_neg c5, if_pos c6]
  simp only []
  rw [if_pos c7]
  rw [c8, if_pos ⟨h1, hv⟩]

/-- A four-byte UTF-8 sequence decodes back to its scalar. -/
theorem parseOneChar_utf8_4 (m : Nat) (bs : List Nat) (h1 : 0x10000 ≤ m)
    (h2 : m < 0x110000) :
    parseOneChar (0xF0 + m / 262144) ((0x80 + m / 4096 % 64) :: (0x80 + m / 64 % 64) ::
        (0x80 + m % 64) :: bs) = some (Char.ofNat m, bs) := by
  have c1 : ¬(0xF0 + m / 262144 = 92) := by omega
  have c2 : ¬(0xF0 + m / 262144 < 0x20) := by omega
  have c3 : ¬(0xF0 + m / 262144 < 0x80) := by omega
  have c4 : ¬(0xF0 + m / 262144 < 0xC2) := by omega
  have c5 : ¬(0xF0 + m / 262144 < 0xE0) := by omega
  have c6 : ¬(0xF0 + m / 262144 < 0xF0) := by omega
  have c7 : 0xF0 + m / 262144 < 0xF5 := by omega
  have c8 : 0x80 ≤ 0x80 + m / 4096 % 64 ∧ 0x80 + m / 4096 % 64 < 0xC0 ∧
      0x80 ≤ 0x80 + m / 64 % 64 ∧ 0x80 + m / 64 % 64 < 0xC0 ∧
      0x80 ≤ 0x80 + m % 64 ∧ 0x80 + m % 64 < 0xC0 := by omega
  have c9 : (0xF0 + m / 262144 - 0xF0) * 262144 + (0x80 + m / 4096 % 64 - 0x80) * 4096 +
      (0x80 + m / 64 % 64 - 0x80) * 64 + (0x80 + m % 64 - 0x80) = m := by omega
  unfold parseOneChar parseFourByte
  rw [if_neg c1, if_neg c2, if_neg c3, if_neg c4, if_neg c5, if_neg c6, if_pos c7]
  simp only []
  rw [if_pos c8]
  rw [c9, if_pos ⟨h1, h2⟩]

/-- Decoding inverts the per-character JSON string encoder: the bytes of
`escChar c` followed by anything decode to `c` followed by the decode of the
remainder. -/
theorem unquoteLoop_escChar (c : Char) (bs : List Nat) :
    unquoteLoop (escChar c ++ bs) = (unquoteLoop bs).map fun r => (c :: r.1, r.2) := by
  have hofn : Char.ofNat c.toNat = c := Char.ofNat_toNat c
  have hval := char_toNat_valid c
  by_cases h80 : c.toNat < 0x80
  · by_cases h34 : c.toNat = 34
    · have hp : parseOneChar 92 (34 :: bs) = some (c, bs) := by
        have h : parseOneChar 92 (34 :: bs) = some (Char.ofNat 34, bs) := rfl
        rw [h, ← h34, hofn]
      have hesc : escChar c = [92, 34] := by
        simp only [escChar]
        rw [if_pos h80, if_pos h34]
      rw [hesc]
      exact unquoteLoop_cons 92 (34 :: bs) (by omega) c bs hp
    · by_cases h92 : c.toNat = 92
      · have hp : parseOneChar 92 (92 :: bs) = some (c, bs) := by
          have h : parseOneChar 92 (92 :: bs) = some (Char.ofNat 92, bs) := rfl
          rw [h, ← h92, hofn]
        have hesc : escChar c = [92, 92] := by
          simp only [escChar]
          rw [if_pos h80, if_neg h34, if_pos h92]
        rw [hesc]
        exact unquoteLoop_cons 92 (92 :: bs) (by omega) c bs hp
      · by_cases hsafe : 0x20 ≤ c.toNat ∧ c.toNat ≠ 60 ∧ c.toNat ≠ 62 ∧ c.toNat ≠ 38
        · have hp : parseOneChar c.toNat bs = some (c, bs) := by
            rw [parseOneChar_raw_ascii c.toNat bs hsafe.1 h80 h92, hofn]
          have hesc : escChar c = [c.toNat] := by
            simp only [escChar]
            rw [if_pos h80, if_neg h34, if_neg h92, if_pos hsafe]
          rw [hesc]
          exact unquoteLoop_cons c.toNat bs h34 c bs hp
        · by_cases h10 : c.toNat = 10
          · have hp : parseOneChar 92 (110 :: bs) = some (c, bs) := by
              have h : parseOneChar 92 (110 :: bs) = some (Char.ofNat 10, bs) := rfl
              rw [h, ← h10, hofn]
            have hesc : escChar c = [92, 110] := by
              simp only [escChar]
              rw [if_pos h80, if_neg h34, if_neg h92, if_neg hsafe, if_pos h10]
            rw [hesc]
            exact unquoteLoop_cons 92 (110 :: bs) (by omega) c bs hp
          · by_cases h13 : c.toNat = 13
            · have hp : parseOneChar 92 (114 :: bs) = some (c, bs) := by
                have h : parseOneChar 92 (114 :: bs) = some (Char.ofNat 13, bs) := rfl
                rw [h, ← h13, hofn]
              have hesc : escChar c = [92, 114] := by
                simp only [escChar]
                rw [if_pos h80, if_neg h34, if_neg h92, if_neg hsafe, if_neg h10, if_pos h13]
              rw [hesc]
              exact unquoteLoop_cons 92 (114 :: bs) (by omega) c bs hp
            · by_cases h9 : c.toNat = 9
              · have hp : parseOneChar 92 (116 :: bs) = some (c, bs) := by
                  have h : parseOneChar 92 (116 :: bs) = some (Char.ofNat 9, bs) := rfl
                  rw [h, ← h9, hofn]
                have hesc : escChar c = [92, 116] := by
                  simp only [escChar]
                  rw [if_pos h80, if_neg h34, if_neg h92, if_neg hsafe, if_neg h10,
                    if_neg h13, if_pos h9]
                rw [hesc]
                exact unquoteLoop_cons 92 (116 :: bs) (by omega) c bs hp
              · -- other control characters and the HTML-escaped <, >, &
                have hp : parseOneChar 92 (117 :: 48 :: 48 :: hexDigitChar (c.toNat / 16) ::
                    hexDigitChar (c.toNat % 16) :: bs) = some (c, bs) := by
                  have h := parseOneChar_u_escape 0 0 (c.toNat / 16) (c.toNat % 16) bs
                    (by omega) (by omega) (by omega) (by omega) (Or.inl (by omega))
                  rw [show ((0 * 16 + 0) * 16 + c.toNat / 16) * 16 + c.toNat % 16 = c.toNat
                    from by omega] at h
                  rw [hofn] at h
                  exact h
                have hesc : escChar c = [92, 117, 48, 48, hexDigitChar (c.toNat / 16),
                    hexDigitChar (c.toNat % 16)] := by
                  simp only [escChar]
                  rw [if_pos h80, if_neg h34, if_neg h92, if_neg hsafe, if_neg h10,
                    if_neg h13, if_neg h9]
                rw [hesc]
                exact unquoteLoop_cons 92 (117 :: 48 :: 48 :: hexDigitChar (c.toNat / 16) ::
                  hexDigitChar (c.toNat % 16) :: bs) (by omega) c bs hp
  · by_cases h2028 : c.toNat = 0x2028 ∨ c.toNat = 0x2029
    · have hp : parseOneChar 92 (117 :: 50 :: 48 :: 50 ::
          hexDigitChar (c.toNat % 16) :: bs) = some (c, bs) := by
        have h := parseOneChar_u_escape 2 0 2 (c.toNat % 16) bs
          (by omega) (by omega) (by omega) (by omega) (Or.inl (by omega))
        rw [show ((2 * 16 + 0) * 16 + 2) * 16 + c.toNat % 16 = c.toNat from by
          rcases h2028 with h | h <;> omega] at h
        rw [hofn] at h
        exact h
      have hesc : escChar c = [92, 117, 50, 48, 50, hexDigitChar (c.toNat % 16)] := by
        simp only [escChar]
        rw [if_neg h80, if_pos h2028]
      rw [hesc]
      exact unquoteLoop_cons 92 (117 :: 50 :: 48 :: 50 ::
        hexDigitChar (c.toNat % 16) :: bs) (by omega) c bs hp
    · by_cases h800 : c.toNat < 0x800
      · have hp : parseOneChar (0xC0 + c.toNat / 64) ((0x80 + c.toNat % 64) :: bs) =
            some (c, bs) := by
          have h := parseOneChar_utf8_2 c.toNat bs (by omega) h800
          rw [hofn] at h
          exact h
        have hesc : escChar c = [0xC0 + c.toNat / 64, 0x80 + c.toNat % 64] := by
          simp only [escChar, utf8EncodeCharBytes]
          rw [if_neg h80, if_neg h2028, if_neg h80, if_pos h800]
        rw [hesc]
        exact unquoteLoop_cons (0xC0 + c.toNat / 64) ((0x80 + c.toNat % 64) :: bs)
          (by omega) c bs hp
      · by_cases h10000 : c.toNat < 0x10000
        · have hv : c.toNat < 0xD800 ∨ 0xE000 ≤ c.toNat := by
            rcases hval with h | ⟨h, _⟩
            · exact Or.inl h
            · exact Or.inr (by omega)
          have hp : parseOneChar (0xE0 + c.toNat / 4096)
              ((0x80 + c.toNat / 64 % 64) :: (0x80 + c.toNat % 64) :: bs) =
              some (c, bs) := by
            have h := parseOneChar_utf8_3 c.toNat bs (by omega) h10000 hv
            rw [hofn] at h
            exact h
          have hesc : escChar c = [0xE0 + c.toNat / 4096, 0x80 + c.toNat / 64 % 64,
              0x80 + c.toNat % 64] := by
            simp only [escChar, utf8EncodeCharBytes]
            rw [if_neg h80, if_neg h2028, if_neg h80, if_neg h800, if_pos h10000]
          rw [hesc]
          exact unquoteLoop_cons (0xE0 + c.toNat / 4096)
            ((0x80 + c.toNat / 64 % 64) :: (0x80 + c.toNat % 64) :: bs) (by omega) c bs hp
        · have hlt : c.toNat < 0x110000 := by
            rcases hval with h | ⟨_, h⟩
            · omega
            · exact h
          have hp : parseOneChar (0xF0 + c.toNat / 262144)
              ((0x80 + c.toNat / 4096 % 64) :: (0x80 + c.toNat / 64 % 64) ::
                (0x80 + c.toNat % 64) :: bs) = some (c, bs) := by
            have h := parseOneChar_utf8_4 c.toNat bs (by omega) hlt
            rw [hofn] at h
            exact h
          have hesc : escChar c = [0xF0 + c.toNat / 262144, 0x80 + c.toNat / 4096 % 64,
              0x80 + c.toNat / 64 % 64, 0x80 + c.toNat % 64] := by
            simp only [escChar, utf8EncodeCharBytes]
            rw [if_neg h80, if_neg h2028, if_neg h80, if_neg h800, if_neg h10000]
          rw [hesc]
          exact unquoteLoop_cons (0xF0 + c.toNat / 262144)
            ((0x80 + c.toNat / 4096 % 64) :: (0x80 + c.toNat / 64 % 64) ::
              (0x80 + c.toNat % 64) :: bs) (by omega) c bs hp

/-- Decoding inverts the JSON string-body encoder up to the closing quote. -/
theorem unquoteLoop_escBytes (cs : List Char) (rest : List Nat) :
    unquoteLoop (escBytes cs ++ 34 :: rest) = some (cs, rest) := by
  induction cs with
  | nil => simp [escBytes, unquoteLoop]
  | cons c cs ih =>
    have h1 : escBytes (c :: cs) = escChar c ++ escBytes cs := by
      simp [escBytes]
    rw [h1, List.append_assoc, unquoteLoop_escChar, ih]
    rfl

/-- Parsing inverts the quoted-string encoder. -/
theorem parseJsonString_goQuote (s : String) (rest : List Nat) :
    parseJsonString (goQuoteBytes s ++ rest) = some (s, rest) := by
  unfold goQuoteBytes parseJsonString
  simp [List.append_assoc, unquoteLoop_escBytes]

theorem dropPrefixBytes_append (ps bs : List Nat) : dropPrefixBytes ps (ps ++ bs) = some bs := by
  induction ps with
  | nil => rfl
  | cons p ps ih => simp [dropPrefixBytes, ih]

/-- Unmarshalling inverts marshalling for the state payload. -/
theorem parseStatePayload_marshal (p : StatePayload) :
    parseStatePayload (jsonMarshalStatePayload p) = some p := by
  unfold parseStatePayload jsonMarshalStatePayload
  simp only [List.append_assoc]
  rw [dropPrefixBytes_append]
  simp only [Option.bind_eq_bind, Option.some_bind]
  rw [parseJsonString_goQuote]
  simp only [Option.some_bind]
  rw [dropPrefixBytes_append]
  simp only [Option.some_bind]
  rw [parseJsonString_goQuote]
  simp only [Option.some_bind]
  rw [dropPrefixBytes_append]
  simp only [Option.some_bind]
  rw [parseJsonString_goQuote]
  simp only [Option.some_bind]
  rfl

theorem hexDigitChar_lt (d : Nat) (h : d < 16) : hexDigitChar d < 256 := by
  unfold hexDigitChar
  split_ifs <;> omega

/-- Every byte the per-character encoder emits is a byte. -/
theorem escChar_lt (c : Char) : ∀ b ∈ escChar c, b < 256 := by
  have hval := char_toNat_valid c
  have hd1 : ∀ d, d < 16 → hexDigitChar d < 256 := fun d hd => hexDigitChar_lt d hd
  unfold escChar utf8EncodeCharBytes
  simp only []
  split_ifs <;>
    intro b hb <;>
    simp only [List.mem_cons, List.not_mem_nil, or_false] at hb
  all_goals try omega
  all_goals try have e1 := hd1 (c.toNat / 16) (by omega)
  all_goals have e2 := hd1 (c.toNat % 16) (by omega)
  all_goals omega

theorem escBytes_lt (cs : List Char) : ∀ b ∈ escBytes cs, b < 256 := by
  intro b hb
  simp only [escBytes, List.mem_flatMap] at hb
  obtain ⟨c, _, hc⟩ := hb
  exact escChar_lt c b hc

theorem goQuoteBytes_lt (s : String) : ∀ b ∈ goQuoteBytes s, b < 256 := by
  intro b hb
  unfold goQuoteBytes at hb
  rcases List.mem_cons.mp hb with rfl | hb2
  · omega
  · rcases List.mem_append.mp hb2 with hb3 | hb4
    · exact escBytes_lt s.data b hb3
    · simp only [List.mem_singleton] at hb4
      omega

/-- Every byte of a marshalled state payload is a byte. -/
theorem jsonMarshal_lt (p : StatePayload) : ∀ b ∈ jsonMarshalStatePayload p, b < 256 := by
  intro b hb
  simp only [jsonMarshalStatePayload, List.mem_append] at hb
  have hlit1 : ∀ b ∈ asciiBytes "\x7b\"uid\":", b < 256 := by decide
  have hlit2 : ∀ b ∈ asciiBytes ",\"server\":", b < 256 := by decide
  have hlit3 : ∀ b ∈ asciiBytes ",\"n\":", b < 256 := by decide
  have hlit4 : ∀ b ∈ asciiBytes "\x7d", b < 256 := by decide
  rcases hb with ((((((hb | hb) | hb) | hb) | hb) | hb) | hb)
  · exact hlit1 b hb
  · exact goQuoteBytes_lt _ b hb
  · exact hlit2 b hb
  · exact goQuoteBytes_lt _ b hb
  · exact hlit3 b hb
  · exact goQuoteBytes_lt _ b hb
  · exact hlit4 b hb

/-- Base64 sextets of byte data are sextets. -/
theorem b64EncodeSextets_lt : ∀ l : List Nat, (∀ b ∈ l, b < 256) →
    ∀ x ∈ b64EncodeSextets l, x < 64
  | [], _ => by simp [b64EncodeSextets]
  | [a], h => by
    have ha := h a (by simp)
    intro x hx
    simp only [b64EncodeSextets, List.mem_cons, List.not_mem_nil, or_false] at hx
    omega
  | [a, b], h => by
    have ha := h a (by simp)
    have hb := h b (by simp)
    intro x hx
    simp only [b64EncodeSextets, List.mem_cons, List.not_mem_nil, or_false] at hx
    omega
  | a :: b :: c :: rest, h => by
    have ih := b64EncodeSextets_lt rest (fun y hy => h y (by simp [hy]))
    have ha := h a (by simp)
    have hb := h b (by simp)
    have hc := h c (by simp)
    intro x hx
    simp only [b64EncodeSextets, List.mem_cons] at hx
    rcases hx with rfl | rfl | rfl | rfl | hx
    · omega
    · omega
    · omega
    · omega
    · exact ih x hx

/-- Base64 decoding inverts encoding on byte data. -/
theorem b64DecodeSextets_encode : ∀ l : List Nat, (∀ b ∈ l, b < 256) →
    b64DecodeSextets (b64EncodeSextets l) = some l
  | [], _ => rfl
  | [a], h => by
    have ha := h a (by simp)
    simp only [b64EncodeSextets, b64DecodeSextets, Option.some.injEq, List.cons.injEq,
      and_true]
    omega
  | [a, b], h => by
    have ha := h a (by simp)
    have hb := h b (by simp)
    simp only [b64EncodeSextets, b64DecodeSextets, Option.some.injEq, List.cons.injEq,
      and_true]
    omega
  | a :: b :: c :: rest, h => by
    have ih := b64DecodeSextets_encode rest (fun y hy => h y (by simp [hy]))
    have ha := h a (by simp)
    have hb := h b (by simp)
    have hc := h c (by simp)
    simp only [b64EncodeSextets, b64DecodeSextets]
    rw [ih]
    simp only [Option.map_some', Option.some.injEq, List.cons.injEq, and_true]
    omega

/-- Decoding the base64 alphabet characters of a sextet list recovers it. -/
theorem mapM_b64CharDec_map_b64Char : ∀ l : List Nat, (∀ x ∈ l, x < 64) →
    (l.map b64Char).mapM b64CharDec = some l := by
  intro l
  induction l with
  | nil => intro _; rfl
  | cons x xs ih =>
    intro h
    have hx : b64CharDec (b64Char x) = some x := b64CharDec_b64Char x (h x (by simp))
    simp only [List.map_cons, List.mapM_cons, hx, Option.bind_eq_bind, Option.some_bind,
      ih (fun y hy => h y (by simp [hy])), Option.map_some, Option.pure_def]

/-- The state codec round-trip: decoding an encoded state recovers the
payload. -/
theorem decodeState_encodeState (u s n : String) :
    DecodeState (EncodeState u s n) = some ⟨u, s, n⟩ := by
  have hbytes := jsonMarshal_lt ⟨u, s, n⟩
  have hsex := b64EncodeSextets_lt _ hbytes
  unfold DecodeState EncodeState
  rw [show (String.mk ((b64EncodeSextets (jsonMarshalStatePayload ⟨u, s, n⟩)).map
    b64Char)).data = (b64EncodeSextets (jsonMarshalStatePayload ⟨u, s, n⟩)).map b64Char
    from rfl]
  rw [mapM_b64CharDec_map_b64Char _ hsex]
  simp only [Option.bind_eq_bind, Option.some_bind]
  rw [b64DecodeSextets_encode _ hbytes]
  simp only [Option.some_bind]
  exact parseStatePayload_marshal _

/-! ## Claim C9: state round-trip and nonce uniqueness -/

/-- C9: decoding an encoded state recovers the user id, tenant and nonce, and
two encodings with identical user id and tenant but distinct fresh nonces
never produce the same state string. -/
theorem encodeState_roundtrip_nonce_unique (u s n n1 n2 : String) (hne : n1 ≠ n2) :
    DecodeState (EncodeState u s n) = some ⟨u, s, n⟩ ∧
    EncodeState u s n1 ≠ EncodeState u s n2 := by
  refine ⟨decodeState_encodeState u s n, fun heq => hne ?_⟩
  have h1 := decodeState_encodeState u s n1
  rw [heq, decodeState_encodeState u s n2] at h1
  simp only [Option.some.injEq, StatePayload.mk.injEq, true_and] at h1
  exact h1.symm

/-- Witness for C9 on concrete strings. -/
theorem encodeState_roundtrip_nonce_unique_witness :
    DecodeState (EncodeState "user123" "tenantX" "abcDEF-_0129") =
      some ⟨"user123", "tenantX", "abcDEF-_0129"⟩ ∧
    EncodeState "user123" "tenantX" "nonceA" ≠ EncodeState "user123" "tenantX" "nonceB" :=
  ⟨(encodeState_roundtrip_nonce_unique "user123" "tenantX" "abcDEF-_0129" "nonceA" "nonceB"
      (by decide)).1,
    (encodeState_roundtrip_nonce_unique "user123" "tenantX" "abcDEF-_0129" "nonceA" "nonceB"
      (by decide)).2⟩

/-! ## Claim C6: tenant mismatch fails early -/

/-- C6: when the request tenant disagrees with the tenant embedded in the
decoded state, the callback fails at the mismatch check (responding with the
invalid-state client error — the code reuses `errors.ErrInvalidState` for the
spec TenantMismatch kind), the store is unchanged (no token persisted, no
verifier consumed) and no call of any kind is made (the event trace is
empty). -/
theorem callback_tenant_mismatch (cfg : Config) (env : OAuthEnv) (st : RedisState)
    (f : RedisFaults) (now : Int) (req : CallbackRequest) (payload : StatePayload)
    (hdec : DecodeState req.state = some payload)
    (hne : req.serverName ≠ payload.serverName) :
    AuthHandler.Callback cfg env st f now req = (.serverNameMismatch, st, []) := by
  simp [AuthHandler.Callback, hdec, hne]

/-- Witness for C6: a request for tenantY against a state minted for
tenantX. -/
theorem callback_tenant_mismatch_witness :
    AuthHandler.Callback sampleConfig sampleEnv emptyStore noFaults 0
      ⟨"youtube", "tenantY", "svc", EncodeState "u1" "tenantX" "nonceXYZ", "code", ""⟩ =
      (.serverNameMismatch, emptyStore, []) :=
  callback_tenant_mismatch sampleConfig sampleEnv emptyStore noFaults 0
    ⟨"youtube", "tenantY", "svc", EncodeState "u1" "tenantX" "nonceXYZ", "code", ""⟩
    ⟨"u1", "tenantX", "nonceXYZ"⟩
    (decodeState_encodeState "u1" "tenantX" "nonceXYZ") (by decide)

/-! ## Claim C3 (corrected): refresh-token copying on exchange-token-grant
refreshes -/

/-- Counterexample to C3 as stated: a successful Instagram exchange-token-grant
refresh returns a token whose `RefreshToken` is empty — not the newly
returned access token. -/
theorem refreshTokenWithInstagram_empty_refreshToken :
    (OAuthService.refreshTokenWithInstagram sampleEnv 0 "tok123").1 =
      .ok { accessToken := "newtok", refreshToken := "", tokenType := "bearer",
            expiry := some 3600 } ∧
    ("" : String) ≠ "newtok" := ⟨rfl, by decide⟩

/-- C3 as amended: the Facebook refresh and the Instagram/Facebook long-lived
exchange upgrades copy the returned access token into `RefreshToken`, but the
Instagram refresh leaves `RefreshToken` empty; consequently, after
`GetValidToken` refreshes a stale Instagram token, the token returned and
persisted has an empty `RefreshToken` (its access token is used as the
refresh credential on the next refresh instead). -/
theorem exchange_token_grant_refresh_tokens (cfg : Config) (env : OAuthEnv)
    (st : RedisState) (f : RedisFaults) (now : Int)
    (userID serverName cred shortTok : String) (tok : Token) (sc : ServerConfig)
    (r : GrantResp) :
    (env.refreshHttp FacebookUpgradeURL cred = .ok r →
      (OAuthService.refreshTokenWithFacebook env now cred).1 =
        .ok (tokenOfGrantResp now r r.accessToken)) ∧
    (env.refreshHttp InstagramRefreshURL cred = .ok r →
      (OAuthService.refreshTokenWithInstagram env now cred).1 =
        .ok (tokenOfGrantResp now r "")) ∧
    (env.upgradeHttp InstagramUpgradeURL shortTok = .ok r →
      (OAuthService.exchangeInstagramToken env now shortTok).1 =
        .ok (tokenOfGrantResp now r r.accessToken)) ∧
    (env.upgradeHttp FacebookUpgradeURL shortTok = .ok r →
      (OAuthService.exchangeFacebookToken env now shortTok).1 =
        .ok (tokenOfGrantResp now r r.accessToken)) ∧
    (cfg.servers serverName = some sc →
      RedisStorage.GetToken st f userID "instagram" serverName = .ok tok →
      isTokenExpired now (some tok) = true →
      tok.accessToken ≠ "" →
      env.refreshHttp InstagramRefreshURL tok.accessToken = .ok r →
      f.setErr = none →
      (TokenManager.GetValidToken cfg env st f now userID "instagram" serverName).1 =
        .ok (tokenOfGrantResp now r "") ∧
      (TokenManager.GetValidToken cfg env st f now userID "instagram"
          serverName).2.1.tokens (tokenKey userID "instagram" serverName) =
        some (tokenOfGrantResp now r "")) := by
  have hX : ¬(InstagramTokenURL = XTokenURL) := by decide
  refine ⟨?_, ?_, ?_, ?_, ?_⟩
  · intro h
    simp [OAuthService.refreshTokenWithFacebook, h]
  · intro h
    simp [OAuthService.refreshTokenWithInstagram, h]
  · intro h
    simp [OAuthService.exchangeInstagramToken, h]
  · intro h
    simp [OAuthService.exchangeFacebookToken, h]
  · intro hsc hget hstale hacc hr hs
    constructor <;>
      simp [TokenManager.GetValidToken, TokenManager.refreshToken,
        TokenManager.refreshTokenCore, Config.GetServerOAuthConfig,
        OAuthService.RefreshToken, OAuthService.refreshTokenWithInstagram,
        RedisStorage.SaveToken, hget, hstale, hsc, hacc, hX, hr, hs]

/-- Witness for C3 (amended) on the concrete stale Instagram cache entry. -/
theorem exchange_token_grant_refresh_tokens_witness :
    (TokenManager.GetValidToken sampleConfig sampleEnv igStore noFaults 0
        "u1" "instagram" "srv").1 = .ok (tokenOfGrantResp 0 sampleGrantResp "") ∧
    (OAuthService.refreshTokenWithFacebook sampleEnv 0 "cred0").1 =
      .ok (tokenOfGrantResp 0 sampleGrantResp sampleGrantResp.accessToken) :=
  ⟨((exchange_token_grant_refresh_tokens sampleConfig sampleEnv igStore noFaults 0
      "u1" "srv" "cred0" "tok0" sampleToken sampleServerConfig sampleGrantResp).2.2.2.2
      rfl rfl rfl (by decide) rfl rfl).1,
    (exchange_token_grant_refresh_tokens sampleConfig sampleEnv igStore noFaults 0
      "u1" "srv" "cred0" "tok0" sampleToken sampleServerConfig sampleGrantResp).1 rfl⟩

/-! ## Claim C4 (corrected): the fresh-login callback persists under the
request user id, not the user id recovered from the state -/

/-- Counterexample to C4 as stated: in a successful fresh-login callback whose
state decodes to the platform user id `"platformuser"` while the request
carries the service user id `"svcuser"`, the token is persisted under
`"svcuser"` and nothing is stored under `"platformuser"`. -/
theorem callback_saves_under_request_user_cex :
    DecodeState c4Request.state = some ⟨"platformuser", "srv", "nonce12"⟩ ∧
    (AuthHandler.Callback sampleConfig sampleEnv c4Store noFaults 0 c4Request).1 =
      .success "svcuser" "srv" 7200 0 ∧
    (AuthHandler.Callback sampleConfig sampleEnv c4Store noFaults 0 c4Request).2.1.tokens
        (tokenKey "svcuser" "x" "srv") = some (tokenOfXResp 0 sampleXResp) ∧
    (AuthHandler.Callback sampleConfig sampleEnv c4Store noFaults 0 c4Request).2.1.tokens
        (tokenKey "platformuser" "x" "srv") = none := by
  have hdec : DecodeState c4State = some ⟨"platformuser", "srv", "nonce12"⟩ :=
    decodeState_encodeState "platformuser" "srv" "nonce12"
  have hXIG : ¬(XTokenURL = InstagramTokenURL) := by decide
  have hXFB : ¬(XTokenURL = FacebookTokenURL) := by decide
  refine ⟨hdec, ?_, ?_, ?_⟩ <;>
    simp [AuthHandler.Callback, hdec, c4Request, Config.GetServerOAuthConfig,
      sampleConfig, RedisStorage.GetAndDeletePKCEVerifier, noFaults,
      OAuthService.ExchangeCode, OAuthService.exchangeCodeWithPKCE, sampleEnv,
      hXIG, hXFB, RedisStorage.SaveToken, RedisStorage.GetToken,
      Registry.GetPlatform, registryPlatforms, tokenOfXResp, sampleXResp, c4Store,
      tokenKey]

/-- C4 as amended: in a successful fresh-login callback (state decodes, its
tenant matches the request tenant, provider `x`, a PKCE verifier stored for
the state, fault-free store, successful exchange), the exchange uses the
stored verifier, the verifier is deleted after use, and the resulting token
is persisted under the identity whose user id is the REQUEST user id (the
user id recovered from the state is only logged). -/
theorem callback_fresh_login_success (cfg : Config) (env : OAuthEnv) (st : RedisState)
    (f : RedisFaults) (now : Int) (req : CallbackRequest) (payload : StatePayload)
    (sc : ServerConfig) (v : String) (xr : XResp)
    (hdec : DecodeState req.state = some payload)
    (hmatch : req.serverName = payload.serverName)
    (hprov : req.provider = "x")
    (hsc : cfg.servers req.serverName = some sc)
    (hpkce : st.pkce (pkceKey req.state) = some v)
    (hpipe : f.pkcePipeErr = none) (hdel : f.pkceDelErr = none)
    (hv : v ≠ "")
    (hx : env.xExchangeHttp req.code v = .ok xr)
    (hset : f.setErr = none) (hping : f.pingErr = none)
    (hgetf : f.getErr (tokenKey req.userID "x" req.serverName) = none)
    (hum : f.unmarshalErr (tokenKey req.userID "x" req.serverName) = false) :
    (AuthHandler.Callback cfg env st f now req).1 =
      .success req.userID req.serverName
        (match (tokenOfXResp now xr).expiry with | none => 0 | some e => e) now ∧
    Event.httpExchange XTokenURL req.code v ∈
      (AuthHandler.Callback cfg env st f now req).2.2 ∧
    (AuthHandler.Callback cfg env st f now req).2.1.pkce (pkceKey req.state) = none ∧
    (AuthHandler.Callback cfg env st f now req).2.1.tokens
      (tokenKey req.userID "x" req.serverName) = some (tokenOfXResp now xr) := by
  have hXIG : ¬(XTokenURL = InstagramTokenURL) := by decide
  have hXFB : ¬(XTokenURL = FacebookTokenURL) := by decide
  have hsc2 : cfg.servers payload.serverName = some sc := by rw [← hmatch]; exact hsc
  have hgetf2 : f.getErr (tokenKey req.userID "x" payload.serverName) = none := by
    rw [← hmatch]; exact hgetf
  have hum2 : f.unmarshalErr (tokenKey req.userID "x" payload.serverName) = false := by
    rw [← hmatch]; exact hum
  refine ⟨?_, ?_, ?_, ?_⟩ <;>
    simp [AuthHandler.Callback, hdec, hmatch, hprov, Config.GetServerOAuthConfig, hsc2,
      hgetf2, hum2,
      RedisStorage.GetAndDeletePKCEVerifier, hpipe, hdel, hpkce,
      OAuthService.ExchangeCode, OAuthService.exchangeCodeWithPKCE, hv, hx,
      hXIG, hXFB, RedisStorage.SaveToken, hset, RedisStorage.GetToken, hping, hgetf, hum,
      Registry.GetPlatform, registryPlatforms, tokenOfXResp]

/-- Witness for C4 (amended) on the concrete fresh-login fixtures. -/
theorem callback_fresh_login_success_witness :
    (AuthHandler.Callback sampleConfig sampleEnv c4Store noFaults 0 c4Request).2.1.tokens
        (tokenKey "svcuser" "x" "srv") = some (tokenOfXResp 0 sampleXResp) ∧
    (AuthHandler.Callback sampleConfig sampleEnv c4Store noFaults 0 c4Request).2.1.pkce
        (pkceKey c4Request.state) = none ∧
    Event.httpExchange XTokenURL "abc" "ver64" ∈
      (AuthHandler.Callback sampleConfig sampleEnv c4Store noFaults 0 c4Request).2.2 :=
  ⟨(callback_fresh_login_success sampleConfig sampleEnv c4Store noFaults 0 c4Request
      ⟨"platformuser", "srv", "nonce12"⟩ sampleServerConfig "ver64" sampleXResp
      (decodeState_encodeState "platformuser" "srv" "nonce12") rfl rfl rfl
      (by simp [c4Store, c4Request]) rfl rfl (by decide) rfl rfl rfl rfl rfl).2.2.2,
    (callback_fresh_login_success sampleConfig sampleEnv c4Store noFaults 0 c4Request
      ⟨"platformuser", "srv", "nonce12"⟩ sampleServerConfig "ver64" sampleXResp
      (decodeState_encodeState "platformuser" "srv" "nonce12") rfl rfl rfl
      (by simp [c4Store, c4Request]) rfl rfl (by decide) rfl rfl rfl rfl rfl).2.2.1,
    (callback_fresh_login_success sampleConfig sampleEnv c4Store noFaults 0 c4Request
      ⟨"platformuser", "srv", "nonce12"⟩ sampleServerConfig "ver64" sampleXResp
      (decodeState_encodeState "platformuser" "srv" "nonce12") rfl rfl rfl
      (by simp [c4Store, c4Request]) rfl rfl (by decide) rfl rfl rfl rfl rfl).2.1⟩

/-! ## Claim C1: expiry safety-margin boundaries -/

/-- C1: for every cached token, the Valid/Stale classification of
`isTokenExpired` satisfies the 5-minute safety-margin boundaries: expiry at
`now + 4min59s` is Stale, expiry at `now + 5min01s` is Valid, and an unset
expiry is always Stale — for all access/refresh/type fields and all `now`. -/
theorem isTokenExpired_safety_margin_boundaries (now : Int) (a r ty : String) :
    isTokenExpired now (some ⟨a, r, ty, some (now + 299)⟩) = true ∧
    isTokenExpired now (some ⟨a, r, ty, some (now + 301)⟩) = false ∧
    isTokenExpired now (some ⟨a, r, ty, none⟩) = true := by
  refine ⟨?_, ?_, rfl⟩ <;>
    simp only [isTokenExpired, expiryBuffer, decide_eq_true_eq, decide_eq_false_iff_not] <;>
    omega

/-! ## Claim C10: IsTokenValid never returns an error -/

/-- C10: `IsTokenValid` never returns a non-nil error: for every store state
and every fault pattern — connection failures and undeserializable records
included — the error component is `none`, and every failed read yields
`false`. -/
theorem isTokenValid_never_returns_error (st : RedisState) (f : RedisFaults) (now : Int)
    (userID provider serverName : String) :
    (TokenManager.IsTokenValid st f now userID provider serverName).1.2 = none ∧
    (∀ e, RedisStorage.GetToken st f userID provider serverName = .error e →
      (TokenManager.IsTokenValid st f now userID provider serverName).1.1 = false) := by
  unfold TokenManager.IsTokenValid
  cases h : RedisStorage.GetToken st f userID provider serverName <;> simp [h]

/-- Witness for C10: with the connection down, `IsTokenValid` reports
`(false, nil)`. -/
theorem isTokenValid_never_returns_error_witness :
    (TokenManager.IsTokenValid emptyStore connDownFaults 0 "u1" "youtube" "srv").1.1 = false ∧
    (TokenManager.IsTokenValid emptyStore connDownFaults 0 "u1" "youtube" "srv").1.2 = none :=
  ⟨(isTokenValid_never_returns_error emptyStore connDownFaults 0 "u1" "youtube" "srv").2
      (.redisConnectionFailed "connection refused") rfl,
    (isTokenValid_never_returns_error emptyStore connDownFaults 0 "u1" "youtube" "srv").1⟩

/-! ## Claim C7: force refresh with nothing cached -/

/-- C7: for every identity with no cached token (and a reachable store),
`ForceRefreshToken` fails with the "OAuth token not found" error and the only
effect is the single store read — no provider call is attempted. -/
theorem forceRefresh_nothing_cached (cfg : Config) (env : OAuthEnv) (st : RedisState)
    (f : RedisFaults) (now : Int) (userID provider serverName : String)
    (hnone : st.tokens (tokenKey userID provider serverName) = none)
    (hping : f.pingErr = none)
    (hget : f.getErr (tokenKey userID provider serverName) = none) :
    TokenManager.ForceRefreshToken cfg env st f now userID provider serverName =
      (.error .forceTokenNotFound, st, [.getToken (tokenKey userID provider serverName)]) := by
  unfold TokenManager.ForceRefreshToken RedisStorage.GetToken
  simp [hping, hget, hnone]

/-- Witness for C7 at an empty store. -/
theorem forceRefresh_nothing_cached_witness :
    TokenManager.ForceRefreshToken sampleConfig sampleEnv emptyStore noFaults 0 "u1" "youtube" "srv" =
      (.error .forceTokenNotFound, emptyStore, [.getToken (tokenKey "u1" "youtube" "srv")]) :=
  forceRefresh_nothing_cached sampleConfig sampleEnv emptyStore noFaults 0 "u1" "youtube" "srv"
    rfl rfl rfl

/-! ## Claim C8: the long-lived upgrade failure is swallowed -/

/-- C8: for the Facebook and Instagram endpoints, when the code exchange
succeeds and the long-lived-token upgrade call fails, `ExchangeCode` still
succeeds and returns the original short-lived token. -/
theorem exchange_upgrade_failure_swallowed (env : OAuthEnv) (now : Int) (cfg : OAuthConfig)
    (code : String) (tok : Token) (err : String) :
    (cfg.tokenURL = InstagramTokenURL →
      env.libExchange cfg.tokenURL code "" = .ok tok →
      env.upgradeHttp InstagramUpgradeURL tok.accessToken = .error err →
      (OAuthService.ExchangeCode env now cfg code "").1 = .ok tok) ∧
    (cfg.tokenURL = FacebookTokenURL →
      env.libExchange cfg.tokenURL code "" = .ok tok →
      env.upgradeHttp FacebookUpgradeURL tok.accessToken = .error err →
      (OAuthService.ExchangeCode env now cfg code "").1 = .ok tok) := by
  have h1 : InstagramTokenURL ≠ XTokenURL := by decide
  have h2 : InstagramTokenURL ≠ FacebookTokenURL := by decide
  have h3 : FacebookTokenURL ≠ XTokenURL := by decide
  have h4 : FacebookTokenURL ≠ InstagramTokenURL := by decide
  constructor <;> intro hurl hex hup <;> rw [hurl] at hex <;>
    simp [OAuthService.ExchangeCode, hurl, hex, hup,
      OAuthService.exchangeInstagramToken, OAuthService.exchangeFacebookToken, h1, h2, h3, h4]

/-- Witness for C8: both upgrade endpoints failing on concrete inputs. -/
theorem exchange_upgrade_failure_swallowed_witness :
    (OAuthService.ExchangeCode failUpgradeEnv 0 igOAuthConfig "abc" "").1 =
      .ok ⟨"libtok", "librefresh", "bearer", some 1000⟩ ∧
    (OAuthService.ExchangeCode failUpgradeEnv 0 fbOAuthConfig "abc" "").1 =
      .ok ⟨"libtok", "librefresh", "bearer", some 1000⟩ :=
  ⟨(exchange_upgrade_failure_swallowed failUpgradeEnv 0 igOAuthConfig "abc"
      ⟨"libtok", "librefresh", "bearer", some 1000⟩ "upgrade unavailable").1 rfl rfl rfl,
    (exchange_upgrade_failure_swallowed failUpgradeEnv 0 fbOAuthConfig "abc"
      ⟨"libtok", "librefresh", "bearer", some 1000⟩ "upgrade unavailable").2 rfl rfl rfl⟩

/-! ## Claim C2: refresh credential substitution -/

/-- C2: on a Stale token with an empty refresh token, `GetValidToken` for
Instagram still refreshes, using the access token as the refresh input (the
Instagram refresh call is issued with it); for every other provider it fails
with the refresh-credential-unavailable error and performs no provider call
(the only event is the store read). -/
theorem getValidToken_refresh_credential_substitution (cfg : Config) (env : OAuthEnv)
    (st : RedisState) (f : RedisFaults) (now : Int) (userID serverName : String)
    (tok : Token) (sc : ServerConfig)
    (hstale : isTokenExpired now (some tok) = true)
    (hrt : tok.refreshToken = "") :
    (cfg.servers serverName = some sc →
      RedisStorage.GetToken st f userID "instagram" serverName = .ok tok →
      tok.accessToken ≠ "" →
      Event.httpRefresh InstagramRefreshURL tok.accessToken ∈
        (TokenManager.GetValidToken cfg env st f now userID "instagram" serverName).2.2) ∧
    (∀ provider, provider ≠ "instagram" →
      RedisStorage.GetToken st f userID provider serverName = .ok tok →
      (TokenManager.GetValidToken cfg env st f now userID provider serverName).1 =
        .error (.tokenRefreshFailed .refreshCredentialUnavailable) ∧
      (TokenManager.GetValidToken cfg env st f now userID provider serverName).2.2 =
        [.getToken (tokenKey userID provider serverName)]) := by
  constructor
  · intro hsc hget hacc
    have hX : ¬(InstagramTokenURL = XTokenURL) := by decide
    rcases hr : env.refreshHttp InstagramRefreshURL tok.accessToken with e | r <;>
      rcases hs : f.setErr with _ | e2 <;>
      simp [TokenManager.GetValidToken, TokenManager.refreshToken,
        TokenManager.refreshTokenCore, Config.GetServerOAuthConfig,
        OAuthService.RefreshToken, OAuthService.refreshTokenWithInstagram,
        RedisStorage.SaveToken, hget, hstale, hsc, hacc, hX, hr, hs]
  · intro provider hprov hget
    simp [TokenManager.GetValidToken, hget, hstale, TokenManager.refreshToken, hprov, hrt]

/-! ### Frame lemmas for the refresh core -/

/-- The refresh core hands back `cur` unchanged in `currentAfter`. -/
theorem refreshTokenCore_currentAfter (cfg : Config) (env : OAuthEnv) (st : RedisState)
    (f : RedisFaults) (now : Int) (userID provider serverName : String) (cur : Token) :
    (TokenManager.refreshTokenCore cfg env st f now userID provider serverName
        cur).currentAfter = cur := by
  unfold TokenManager.refreshTokenCore
  split
  · rfl
  · split
    · rfl
    · split <;> rfl

/-- The refresh core never touches the PKCE keyspace. -/
theorem refreshTokenCore_pkce (cfg : Config) (env : OAuthEnv) (st : RedisState)
    (f : RedisFaults) (now : Int) (userID provider serverName : String) (cur : Token) :
    (TokenManager.refreshTokenCore cfg env st f now userID provider serverName
        cur).store.pkce = st.pkce := by
  unfold TokenManager.refreshTokenCore RedisStorage.SaveToken
  rcases hc : cfg.GetServerOAuthConfig provider serverName "" with e | oc
  · simp only []
  · simp only []
    rcases hr : OAuthService.RefreshToken env now oc cur.refreshToken with ⟨e | newTok, evs⟩
    · simp only []
    · simp only []
      rcases hs : f.setErr with _ | e2 <;> simp only []

/-- Any change the refresh core makes to the token keyspace is the whole
refreshed token written under the identity key. -/
theorem refreshTokenCore_store_tokens (cfg : Config) (env : OAuthEnv) (st : RedisState)
    (f : RedisFaults) (now : Int) (userID provider serverName : String) (cur : Token)
    (k : String)
    (hne : (TokenManager.refreshTokenCore cfg env st f now userID provider serverName
        cur).store.tokens k ≠ st.tokens k) :
    k = tokenKey userID provider serverName ∧
    ∃ t, (TokenManager.refreshTokenCore cfg env st f now userID provider serverName
            cur).result = .ok t ∧
      (TokenManager.refreshTokenCore cfg env st f now userID provider serverName
          cur).store.tokens k = some t ∧
      Event.saveToken k t ∈ (TokenManager.refreshTokenCore cfg env st f now userID provider
          serverName cur).events := by
  revert hne
  unfold TokenManager.refreshTokenCore RedisStorage.SaveToken
  rcases hc : cfg.GetServerOAuthConfig provider serverName "" with e | oc
  · simp only []
    intro hne; exact absurd rfl hne
  · simp only []
    rcases hr : OAuthService.RefreshToken env now oc cur.refreshToken with ⟨e | newTok, evs⟩
    · simp only []
      intro hne; exact absurd rfl hne
    · simp only []
      rcases hs : f.setErr with _ | e2
      · simp only []
        intro hne
        by_cases hk : k = tokenKey userID provider serverName
        · subst hk
          exact ⟨rfl, newTok, rfl, by simp, by simp⟩
        · simp only [if_neg hk] at hne
          exact absurd rfl hne
      · simp only []
        intro hne; exact absurd rfl hne

/-- Witness for C2: the Instagram half on a concrete stale cache entry, and
the other-provider half at YouTube. -/
theorem getValidToken_refresh_credential_substitution_witness :
    Event.httpRefresh InstagramRefreshURL "tok123" ∈
      (TokenManager.GetValidToken sampleConfig sampleEnv igStore noFaults 0 "u1" "instagram" "srv").2.2 ∧
    (TokenManager.GetValidToken sampleConfig sampleEnv ytStore noFaults 0 "u1" "youtube" "srv").1 =
      .error (.tokenRefreshFailed .refreshCredentialUnavailable) :=
  ⟨(getValidToken_refresh_credential_substitution sampleConfig sampleEnv igStore noFaults 0
      "u1" "srv" sampleToken sampleServerConfig rfl rfl).1 rfl rfl (by decide),
    ((getValidToken_refresh_credential_substitution sampleConfig sampleEnv ytStore noFaults 0
      "u1" "srv" sampleToken sampleServerConfig rfl rfl).2 "youtube" (by decide) rfl).1⟩

/-! ## Claim C5 (corrected): in-place mutation of the cached token -/

/-- Counterexample to C5 as stated: for Instagram, the internal refresh step
mutates the token it was handed in place — `currentToken.RefreshToken =
currentToken.AccessToken` — so the token read from the store does not keep
all its fields. -/
theorem refreshToken_instagram_mutates_current :
    (TokenManager.refreshToken sampleConfig sampleEnv igStore noFaults 0
        "u1" "instagram" "srv" sampleToken).currentAfter ≠ sampleToken := by
  decide

/-- C5 as amended: the refresh step leaves the input token unchanged for every
provider except Instagram, where it overwrites exactly the in-memory
`RefreshToken` field with the access token before refreshing; the store
itself is never field-updated — any change to it is the whole refreshed
token written back under the identity key (and the PKCE keyspace is
untouched). -/
theorem refreshToken_no_inplace_mutation_except_instagram (cfg : Config) (env : OAuthEnv)
    (st : RedisState) (f : RedisFaults) (now : Int)
    (userID provider serverName : String) (currentToken : Token) :
    (provider ≠ "instagram" →
      (TokenManager.refreshToken cfg env st f now userID provider serverName
          currentToken).currentAfter = currentToken) ∧
    (provider = "instagram" → currentToken.accessToken ≠ "" →
      (TokenManager.refreshToken cfg env st f now userID provider serverName
          currentToken).currentAfter =
        { currentToken with refreshToken := currentToken.accessToken }) ∧
    (∀ k,
      (TokenManager.refreshToken cfg env st f now userID provider serverName
          currentToken).store.tokens k ≠ st.tokens k →
      k = tokenKey userID provider serverName ∧
      ∃ t, (TokenManager.refreshToken cfg env st f now userID provider serverName
              currentToken).result = .ok t ∧
        (TokenManager.refreshToken cfg env st f now userID provider serverName
            currentToken).store.tokens k = some t ∧
        Event.saveToken k t ∈ (TokenManager.refreshToken cfg env st f now userID provider
            serverName currentToken).events) ∧
    (TokenManager.refreshToken cfg env st f now userID provider serverName
        currentToken).store.pkce = st.pkce := by
  refine ⟨?_, ?_, ?_, ?_⟩
  · intro hprov
    unfold TokenManager.refreshToken
    rw [if_neg hprov]
    split
    · rfl
    · exact refreshTokenCore_currentAfter cfg env st f now userID provider serverName
        currentToken
  · intro hprov hacc
    unfold TokenManager.refreshToken
    rw [if_pos hprov, if_neg hacc]
    exact refreshTokenCore_currentAfter cfg env st f now userID provider serverName _
  · intro k
    unfold TokenManager.refreshToken
    by_cases hprov : provider = "instagram"
    · rw [if_pos hprov]
      by_cases hacc : currentToken.accessToken = ""
      · rw [if_pos hacc]
        intro hne; exact absurd rfl hne
      · rw [if_neg hacc]
        exact refreshTokenCore_store_tokens cfg env st f now userID provider serverName _ k
    · rw [if_neg hprov]
      by_cases hrt : currentToken.refreshToken = ""
      · rw [if_pos hrt]
        intro hne; exact absurd rfl hne
      · rw [if_neg hrt]
        exact refreshTokenCore_store_tokens cfg env st f now userID provider serverName _ k
  · unfold TokenManager.refreshToken
    by_cases hprov : provider = "instagram"
    · rw [if_pos hprov]
      by_cases hacc : currentToken.accessToken = ""
      · rw [if_pos hacc]
      · rw [if_neg hacc]
        exact refreshTokenCore_pkce cfg env st f now userID provider serverName _
    · rw [if_neg hprov]
      by_cases hrt : currentToken.refreshToken = ""
      · rw [if_pos hrt]
      · rw [if_neg hrt]
        exact refreshTokenCore_pkce cfg env st f now userID provider serverName _

/-- Witness for C5 (amended): at YouTube the input token is returned
unchanged; at Instagram the refresh-token field is overwritten. -/
theorem refreshToken_no_inplace_mutation_except_instagram_witness :
    (TokenManager.refreshToken sampleConfig sampleEnv ytStore noFaults 0
        "u1" "youtube" "srv" sampleToken).currentAfter = sampleToken ∧
    (TokenManager.refreshToken sampleConfig sampleEnv igStore noFaults 0
        "u1" "instagram" "srv" sampleToken).currentAfter =
      { sampleToken with refreshToken := sampleToken.accessToken } :=
  ⟨(refreshToken_no_inplace_mutation_except_instagram sampleConfig sampleEnv ytStore noFaults 0
      "u1" "youtube" "srv" sampleToken).1 (by decide),
    (refreshToken_no_inplace_mutation_except_instagram sampleConfig sampleEnv igStore noFaults 0
      "u1" "instagram" "srv" sampleToken).2.1 rfl (by decide)⟩

end Social
